import Mathlib

set_option maxRecDepth 8000
set_option maxHeartbeats 1000000

/-!
Formal model of the "metas" commission pipeline, shallowly embedding
`scripts/calc/data_calc.py`.  Text cells are Lean `String`s, numbers are
exact rationals (`ℚ`), tables are lists of records.  Every definition
mirrors a function of the source file; the Python string primitives
(`str.strip`, `str.replace`, `str.upper`, `int(...)`, `float(...)`,
f-string rendering with thousands grouping) are modelled explicitly on
character lists so that all definitions compute by kernel reduction.
-/

/-- Space-like characters stripped by Python `str.strip` (the ones that occur
in spreadsheet cells). -/
def isSpaceChar (c : Char) : Bool :=
  c = ' ' || c = '\t' || c = '\n' || c = '\r'

/-- Model of Python `str.strip` on a character list. -/
def trimChars (cs : List Char) : List Char :=
  ((cs.dropWhile isSpaceChar).reverse.dropWhile isSpaceChar).reverse

/-- Model of Python `str.strip`. -/
def pyStrip (s : String) : String := ⟨trimChars s.data⟩

/-- Model of Python `str.upper` on the ASCII range. -/
def asciiUpperChar (c : Char) : Char :=
  if 'a' ≤ c ∧ c ≤ 'z' then Char.ofNat (c.toNat - 32) else c

/-- Model of Python `str.upper` (spreadsheet names are ASCII). -/
def asciiUpper (s : String) : String := ⟨s.data.map asciiUpperChar⟩

/-- Model of `str.replace(x, "")` for a single-character pattern `x`. -/
def rmChar (x : Char) (s : String) : String := ⟨s.data.filter (fun c => c ≠ x)⟩

/-- Model of `str.replace(".0", "")`: left-to-right, non-overlapping. -/
def rmDotZeroChars : List Char → List Char
  | [] => []
  | [c] => [c]
  | c1 :: c2 :: rest =>
    if c1 = '.' ∧ c2 = '0' then rmDotZeroChars rest
    else c1 :: rmDotZeroChars (c2 :: rest)

/-- Model of `str.replace(".0", "")` on strings. -/
def rmDotZero (s : String) : String := ⟨rmDotZeroChars s.data⟩

/-- Model of `str.replace(",", ".")`. -/
def commaToDot (s : String) : String :=
  ⟨s.data.map (fun c => if c = ',' then '.' else c)⟩

/-- Decimal digits of a natural number, least significant first; the first
argument is fuel (instantiated with the number itself). -/
def natDigitsAux : ℕ → ℕ → List ℕ
  | _, 0 => []
  | 0, _ => []
  | fuel + 1, n + 1 => (n + 1) % 10 :: natDigitsAux fuel ((n + 1) / 10)

/-- Character for a decimal digit. -/
def digitChar (d : ℕ) : Char := Char.ofNat (48 + d)

/-- Decimal digit characters of a natural number, most significant first
(Python `str(int)`, f-string rendering). -/
def natChars (n : ℕ) : List Char :=
  if n = 0 then ['0'] else ((natDigitsAux n n).map digitChar).reverse

/-- Decimal rendering of a natural number. -/
def natToStr (n : ℕ) : String := ⟨natChars n⟩

/-- Decimal rendering of an integer (Python `str(int)`). -/
def intToStr (z : ℤ) : String :=
  if z < 0 then "-" ++ natToStr z.natAbs else natToStr z.natAbs

/-- Thousands grouping of Python's format spec `{:,}` (with `.` substituted for
`,` as in the source): input is the digit characters least significant first;
a separator is inserted after every third digit. -/
def groupRev : List Char → List Char
  | a :: b :: c :: rest@(_ :: _) => a :: b :: c :: '.' :: groupRev rest
  | l => l

/-- Round half to even to an integer, modelling Python `round()`. -/
def rhe (x : ℚ) : ℤ :=
  let fl := ⌊x⌋
  let fr := x - fl
  if fr < 1 / 2 then fl
  else if 1 / 2 < fr then fl + 1
  else if fl % 2 = 0 then fl else fl + 1

/-- Round to two decimal places, modelling Python `round(value, 2)`. -/
def roundQ2 (x : ℚ) : ℚ := (rhe (x * 100) : ℚ) / 100

/-- Digit value of a character, when it is a decimal digit. -/
def charDigit? (c : Char) : Option ℕ :=
  if '0' ≤ c ∧ c ≤ '9' then some (c.toNat - 48) else none

/-- Parse most-significant-first decimal digit characters. -/
def digitsValAux : ℕ → List Char → Option ℕ
  | acc, [] => some acc
  | acc, c :: rest =>
    match charDigit? c with
    | some d => digitsValAux (acc * 10 + d) rest
    | none => none

/-- Split a character list at the first dot. -/
def splitDot : List Char → List Char × Option (List Char)
  | [] => ([], none)
  | c :: rest =>
    if c = '.' then ([], some rest)
    else
      let p := splitDot rest
      (c :: p.1, p.2)

/-- Model of Python `float()` on an unsigned decimal literal
(`"12"`, `"12.5"`, `"12."`, `".5"`; anything else fails). -/
def pyFloatUnsigned? (cs : List Char) : Option ℚ :=
  match splitDot cs with
  | (ipcs, none) =>
    if ipcs = [] then none
    else (digitsValAux 0 ipcs).map (fun n => ((n : ℤ) : ℚ))
  | (ipcs, some frac) =>
    if ipcs = [] ∧ frac = [] then none
    else
      match digitsValAux 0 ipcs, digitsValAux 0 frac with
      | some ip, some fp => some (((ip : ℤ) : ℚ) + ((fp : ℤ) : ℚ) / 10 ^ frac.length)
      | _, _ => none

/-- Model of Python `float(str)` on optionally signed decimal literals. -/
def pyFloat? (s : String) : Option ℚ :=
  match trimChars s.data with
  | [] => pyFloatUnsigned? []
  | c :: rest =>
    if c = '-' then (pyFloatUnsigned? rest).map (fun q => -q)
    else if c = '+' then pyFloatUnsigned? rest
    else pyFloatUnsigned? (c :: rest)

/-- Model of Python `int(str)` on optionally signed integer literals. -/
def pyInt? (s : String) : Option ℤ :=
  match trimChars s.data with
  | [] => none
  | c :: rest =>
    if c = '-' then
      if rest = [] then none else (digitsValAux 0 rest).map (fun n => -(n : ℤ))
    else if c = '+' then
      if rest = [] then none else (digitsValAux 0 rest).map (fun n => (n : ℤ))
    else (digitsValAux 0 (c :: rest)).map (fun n => (n : ℤ))

/-- Model of `br_text_to_float` (data_calc.py): strip; empty gives null;
remove thousands dots, turn the decimal comma into a dot, and parse. -/
def br_text_to_float (s : String) : Option ℚ :=
  if pyStrip s = "" then none
  else pyFloat? (commaToDot (rmChar '.' (pyStrip s)))

/-- Two-digit zero-padded rendering, modelling the f-string `{:02d}`. -/
def twoDigitStr (d : ℕ) : String :=
  if d < 10 then "0" ++ natToStr d else natToStr d

/-- Thousands-grouped rendering of a natural number: the integer part of the
source's `f"{integer_part:,}".replace(",", ".")`. -/
def groupedNatStr (n : ℕ) : String := ⟨(groupRev (natChars n).reverse).reverse⟩

/-- Model of `float_to_br_text` (data_calc.py): round to 2 decimals, render
`abs` integer part with dot grouping and a comma before two decimals.  The
sign is dropped (the source formats `abs(value)` and adds no sign). -/
def float_to_br_text (x : ℚ) : String :=
  let v := roundQ2 x
  let ipart : ℕ := (⌊|v|⌋).toNat
  let dpart : ℕ := (rhe ((|v| - ((ipart : ℤ) : ℚ)) * 100)).toNat
  groupedNatStr ipart ++ "," ++ twoDigitStr dpart

/-- Model of `float_to_br_text_2` (data_calc.py): as `float_to_br_text` but
with a leading minus sign for negative values. -/
def float_to_br_text_2 (x : ℚ) : String :=
  let v := roundQ2 x
  let ipart : ℕ := (⌊|v|⌋).toNat
  let dpart : ℕ := (rhe ((|v| - ((ipart : ℤ) : ℚ)) * 100)).toNat
  let body := groupedNatStr ipart ++ "," ++ twoDigitStr dpart
  if v < 0 then "-" ++ body else body


/-- Row of the calc table (columns of `build_calc_base`'s output frame). -/
structure CalcRow where
  id : String
  filial : String
  codigo : String
  colaborador : String
  meta : String
  valorRealizado : String
  valorRestante : String
  progresso : String
  funcao : String
  premAcomul : String
  premPaga : String
  bonus : String
  premTotal : String
  deriving DecidableEq

/-- Row of the `filtered_user` input worksheet (columns used by
`build_calc_base`: Filial, Código, Nome, Cargo atual). -/
structure UserRow where
  filial : String
  codigo : String
  nome : String
  cargoAtual : String
  deriving DecidableEq

/-- Row of the `2_META` or `TRAINEES` worksheets (ID, Filial, Código,
Colaborador). -/
structure MetaRow where
  id : String
  filial : String
  codigo : String
  colaborador : String
  deriving DecidableEq

/-- Row of the `AFASTAMENTOS` worksheet (Filial, Colaborador). -/
structure AfastRow where
  filial : String
  colaborador : String
  deriving DecidableEq

/-- Row of the `VENDAS_VENDEDOR` worksheet (Filial, Código, Valor Vendas). -/
structure VendaRow where
  filial : String
  codigo : String
  valorVendas : String
  deriving DecidableEq

/-- Row of the `COMISSOES` worksheet (Código, Valor Comissão). -/
structure ComRow where
  codigo : String
  valorComissao : String
  deriving DecidableEq

/-- Row of the `META_GERENTE` worksheet (Filial plus the five premiação
component columns). -/
structure MGRow where
  filial : String
  fatLiquido : String
  cmv : String
  hb : String
  tktMedio : String
  premTotalPct : String
  deriving DecidableEq

/-- Row of a previously written calc worksheet (only ID and Meta are read
back by `read_existing_meta`). -/
structure PriorRow where
  id : String
  meta : String
  deriving DecidableEq

/-- The fixed allow-list `ALLOWED_FUNCOES` of `build_calc_base`. -/
def ALLOWED_FUNCOES : List String :=
  ["FARMACEUTICO", "OPERADOR DE CAIXA", "OPERADORA DE CAIXA", "GERENTE",
   "GERENTE FARMACEUTICO", "PROMOTOR DE VENDAS", "SUBGERENTE"]

/-- The manager titles `manager_funcoes` of the source. -/
def manager_funcoes : List String := ["GERENTE", "SUBGERENTE", "GERENTE FARMACEUTICO"]

/-- Text after the first dash, for the `Cargo atual` split
`x.split("-", 1)[1]`. -/
def afterDash? : List Char → Option (List Char)
  | [] => none
  | c :: rest => if c = '-' then some rest else afterDash? rest

/-- The `Função_calc` derivation of `build_calc_base`:
`x.split("-", 1)[1].strip() if "-" in x else x`. -/
def funcaoFromCargo (s : String) : String :=
  match afterDash? s.data with
  | some rest => pyStrip ⟨rest⟩
  | none => s

/-- One row of `build_calc_base`: parses the Filial (dropping the `F`
prefix) and the Código (dropping a `.0` suffix) as Python `int` does,
concatenates them into the ID, and normalises the job title; `none` models
the `astype(int)` exception on unparsable input. -/
def userToCalcRow (u : UserRow) : Option CalcRow := do
  let f ← pyInt? (rmChar 'F' u.filial)
  let c ← pyInt? (rmDotZero u.codigo)
  pure { id := intToStr f ++ intToStr c
         filial := intToStr f
         codigo := intToStr c
         colaborador := u.nome
         meta := ""
         valorRealizado := ""
         valorRestante := ""
         progresso := ""
         funcao := pyStrip (asciiUpper (funcaoFromCargo u.cargoAtual))
         premAcomul := ""
         premPaga := ""
         bonus := ""
         premTotal := "" }

/-- Numeric sort key for the Filial column (it holds the decimal rendering
of the parsed integer). -/
def filialKey (r : CalcRow) : ℤ := (pyInt? r.filial).getD 0

/-- Model of `build_calc_base` (data_calc.py): parse each `filtered_user`
row, keep only rows whose normalised job title is in `ALLOWED_FUNCOES`,
and sort by Filial ascending. -/
def build_calc_base (users : List UserRow) : Option (List CalcRow) :=
  if users = [] then some []
  else do
    let rows ← users.mapM userToCalcRow
    let filtered := rows.filter (fun r => ALLOWED_FUNCOES.contains r.funcao)
    pure (List.insertionSort (fun a b => filialKey a ≤ filialKey b) filtered)

/-- The in-place normalisation `apply_2_meta_overrides` performs on the calc
table before scanning directives (strip ID; drop `.0` from Código and
strip). -/
def norm2Meta (r : CalcRow) : CalcRow :=
  { r with id := pyStrip r.id, codigo := pyStrip (rmDotZero r.codigo) }

/-- Model of `apply_2_meta_overrides` (data_calc.py).  For each 2_META
directive in order: if its ID already occurs in the (normalised) calc
table, skip; otherwise clone the first calc row with the directive's
Código, overriding Filial (via `int(...)`, whose failure is `none`) and
ID, and collect it; collected rows are appended after the scan, so the
scan itself only consults the original table. -/
def apply2MetaStep (calcN : List CalcRow) (acc : Option (List CalcRow)) (d : MetaRow) :
    Option (List CalcRow) :=
  match acc with
  | none => none
  | some rows =>
    let targetId := pyStrip d.id
    let codigo := pyStrip (rmDotZero d.codigo)
    if calcN.any (fun r => r.id == targetId) then some rows
    else
      match calcN.find? (fun r => r.codigo == codigo) with
      | none => some rows
      | some base =>
        match pyInt? (pyStrip d.filial) with
        | none => none
        | some f =>
          some (rows ++ [{ base with filial := intToStr f, id := targetId }])

/-- Model of `apply_2_meta_overrides` (data_calc.py), main body: normalise
the calc table in place, scan the directives collecting cloned rows (the
scan consults only the normalised original table), then append them. -/
def apply_2_meta_overrides (calcT : List CalcRow) (d2m : List MetaRow) :
    Option (List CalcRow) :=
  if d2m = [] then some calcT
  else
    let calcN := calcT.map norm2Meta
    match d2m.foldl (apply2MetaStep calcN) (some []) with
    | none => none
    | some rows => some (calcN ++ rows)

/-- Model of `read_afastamentos` normalisation: strip Filial, strip and
uppercase Colaborador. -/
def read_afastamentos (rows : List AfastRow) : List AfastRow :=
  rows.map (fun r =>
    { filial := pyStrip r.filial, colaborador := asciiUpper (pyStrip r.colaborador) })

/-- The in-place normalisation `apply_afastamentos` performs on every calc
row (strip Filial; strip and uppercase Colaborador). -/
def normAfast (r : CalcRow) : CalcRow :=
  { r with filial := pyStrip r.filial, colaborador := asciiUpper (pyStrip r.colaborador) }

/-- Whether an AFASTAMENTOS directive matches a (normalised) calc row on
(Filial, Colaborador). -/
def afastMatches (afast : List AfastRow) (r : CalcRow) : Bool :=
  afast.any (fun a => a.filial == r.filial && a.colaborador == r.colaborador)

/-- Model of `apply_afastamentos` (data_calc.py): empty directive table is a
no-op; otherwise normalise every calc row in place, then keep exactly the
rows matching no directive (the source's left-merge on a `_remove` marker
followed by keeping the `isna` rows). -/
def apply_afastamentos (calcT : List CalcRow) (afast : List AfastRow) : List CalcRow :=
  if afast = [] then calcT
  else (calcT.map normAfast).filter (fun r => !(afastMatches afast r))

/-- Model of `read_existing_meta` (data_calc.py): the `{ID: Meta}` mapping,
as the list of (stripped ID, stripped Meta) pairs whose two components are
non-empty; a Python dict built by iteration resolves duplicate keys
last-wins, so lookups scan from the right. -/
def read_existing_meta (prior : List PriorRow) : List (String × String) :=
  (prior.map (fun r => (pyStrip r.id, pyStrip r.meta))).filter
    (fun p => p.1 != "" && p.2 != "")

/-- Last-wins lookup in an association list built by Python dict insertion. -/
def dictGet? (m : List (String × String)) (k : String) : Option String :=
  (m.reverse.find? (fun p => p.1 == k)).map (fun p => p.2)

/-- Model of `restore_meta` (data_calc.py): empty map is a no-op; otherwise
every row's Meta becomes the mapped value of its stripped ID, or empty when
absent (`.map(meta_map).fillna("")`). -/
def restore_meta (calcT : List CalcRow) (metaMap : List (String × String)) :
    List CalcRow :=
  if metaMap = [] then calcT
  else calcT.map (fun r => { r with meta := (dictGet? metaMap (pyStrip r.id)).getD "" })

/-- Model of `get_2_meta_codigos` (data_calc.py): the Código values of the
2_META sheet, normalised (`.0` dropped, stripped); only membership in this
collection is ever used, so duplicates are immaterial. -/
def get_2_meta_codigos (d2m : List MetaRow) : List String :=
  d2m.map (fun d => pyStrip (rmDotZero d.codigo))

/-- VENDAS_VENDEDOR Filial key: uppercase, drop `F`, strip. -/
def vendaFilialKey (v : VendaRow) : String := pyStrip (rmChar 'F' (asciiUpper v.filial))

/-- VENDAS_VENDEDOR Código key: drop `.0`, strip. -/
def vendaCodigoKey (v : VendaRow) : String := pyStrip (rmDotZero v.codigo)

/-- The `safe_convert` of `update_valor_realizado_from_vendas`: unparsable
or empty amounts count as zero. -/
def vendaAmount (v : VendaRow) : ℚ := (br_text_to_float v.valorVendas).getD 0

/-- Composite Filial_Código key on the calc side. -/
def calcCompositeKey (r : CalcRow) : String := pyStrip r.filial ++ "_" ++ pyStrip r.codigo

/-- Composite Filial_Código key on the VENDAS side. -/
def vendaCompositeKey (v : VendaRow) : String := vendaFilialKey v ++ "_" ++ vendaCodigoKey v

/-- Sum of the parsed amounts of a list of VENDAS rows. -/
def sumVendas (vs : List VendaRow) : ℚ := vs.foldl (fun s v => s + vendaAmount v) 0

/-- Model of `update_valor_realizado_from_vendas` (data_calc.py).  An empty
VENDAS_VENDEDOR table leaves the calc table unchanged.  Otherwise every
row's Valor Realizado is reset and recomputed: 2_META rows (Código in the
excluded set) look up their own composite Filial_Código key in the sums of
the VENDAS rows whose composite key belongs to some 2_META calc row; other
rows look up their Código in the sums of the VENDAS rows whose Código
belongs to some regular calc row; a missing key leaves the cell empty. -/
def update_valor_realizado_from_vendas (calcT : List CalcRow) (vendas : List VendaRow)
    (excludedCodigos : List String) : List CalcRow :=
  if vendas = [] then calcT
  else
    let keys2 := (calcT.filter (fun r => excludedCodigos.contains (pyStrip r.codigo))).map
      calcCompositeKey
    let vendas2 := vendas.filter (fun v => keys2.contains (vendaCompositeKey v))
    let regularCodigos := (calcT.filter
      (fun r => !(excludedCodigos.contains (pyStrip r.codigo)))).map
      (fun r => pyStrip r.codigo)
    let vendasRegular := vendas.filter (fun v => regularCodigos.contains (vendaCodigoKey v))
    calcT.map (fun r =>
      let ck := pyStrip r.codigo
      if excludedCodigos.contains ck then
        let ms := vendas2.filter (fun v => vendaCompositeKey v == calcCompositeKey r)
        if ms = [] then { r with valorRealizado := "" }
        else { r with valorRealizado := float_to_br_text_2 (sumVendas ms) }
      else
        let ms := vendasRegular.filter (fun v => vendaCodigoKey v == ck)
        if ms = [] then { r with valorRealizado := "" }
        else { r with valorRealizado := float_to_br_text_2 (sumVendas ms) })

/-- COMISSOES Código key: drop `.0`, strip. -/
def comCodigoKey (c : ComRow) : String := pyStrip (rmDotZero c.codigo)

/-- The `safe_comissao_to_float` of `update_premiacoes_from_comissoes`. -/
def comAmount (c : ComRow) : ℚ := (br_text_to_float c.valorComissao).getD 0

/-- Sum of the parsed amounts of a list of COMISSOES rows. -/
def sumComs (cs : List ComRow) : ℚ := cs.foldl (fun s c => s + comAmount c) 0

/-- The per-Código aggregated commission, as produced by the groupby-sum
left-merged into the calc table: `none` models the NaN of an unmatched
Código. -/
def comissaoTotal? (coms : List ComRow) (ck : String) : Option ℚ :=
  let ms := coms.filter (fun c => comCodigoKey c == ck)
  if ms = [] then none else some (sumComs ms)

/-- The `total_to_br_text` helper: blank when the aggregate is missing or
exactly zero, otherwise the signed Brazilian rendering. -/
def comissaoStr (coms : List ComRow) (ck : String) : String :=
  match comissaoTotal? coms ck with
  | none => ""
  | some q => if q = 0 then "" else float_to_br_text_2 q

/-- The `calculate_row` of `update_premiacoes_from_comissoes`: fills the
four premiação columns of one calc row. -/
def premiacoesRow (coms : List ComRow) (traineeIds : List String) (r : CalcRow) :
    CalcRow :=
  let ck := pyStrip (rmDotZero r.codigo)
  let comissaoTxt := comissaoStr coms ck
  let comissaoQ := br_text_to_float comissaoTxt
  let acomul := match comissaoQ with
    | some _ => comissaoTxt
    | none => ""
  let isManager := manager_funcoes.contains (asciiUpper (pyStrip r.funcao))
  let isTrainee := traineeIds.contains (pyStrip r.id)
  if isManager && !isTrainee then
    { r with premAcomul := acomul, premPaga := "", bonus := "", premTotal := "" }
  else
    match br_text_to_float r.meta, comissaoQ with
    | some meta, some comissao =>
      if meta = 0 then
        { r with premAcomul := acomul, premPaga := "", bonus := "", premTotal := "" }
      else
        let realizado := (br_text_to_float r.valorRealizado).getD 0
        let percentual := realizado / meta
        let paga := if percentual < 4 / 5 then comissao * (1 / 2) else comissao
        let bonusVal : ℚ :=
          if 21 / 20 ≤ percentual ∧ percentual < 11 / 10 then 75
          else if 11 / 10 ≤ percentual then 150
          else 0
        let bonusTxt := if 0 < bonusVal then float_to_br_text_2 bonusVal else ""
        { r with premAcomul := acomul
                 premPaga := float_to_br_text_2 paga
                 bonus := bonusTxt
                 premTotal := float_to_br_text_2 (paga + bonusVal) }
    | _, _ => { r with premAcomul := acomul, premPaga := "", bonus := "", premTotal := "" }

/-- Model of `update_premiacoes_from_comissoes` (data_calc.py): an empty
COMISSOES table leaves calc unchanged; otherwise each row is filled by
`premiacoesRow`. -/
def update_premiacoes_from_comissoes (calcT : List CalcRow) (coms : List ComRow)
    (traineeIds : List String) : List CalcRow :=
  if coms = [] then calcT
  else calcT.map (premiacoesRow coms traineeIds)

/-- The `read_trainees` normalisation that matters downstream: the stripped
ID column. -/
def readTraineeIds (rows : List MetaRow) : List String := rows.map (fun r => pyStrip r.id)

/-- Sum of the five premiação component columns of a META_GERENTE row
(unparsable components are skipped). -/
def mgRowTotal (r : MGRow) : ℚ :=
  (br_text_to_float r.fatLiquido).getD 0 + (br_text_to_float r.cmv).getD 0 +
    (br_text_to_float r.hb).getD 0 + (br_text_to_float r.tktMedio).getD 0 +
    (br_text_to_float r.premTotalPct).getD 0

/-- The `filial_premiacao_map` of `update_gerente_premiacao`: a dict built
by iterating META_GERENTE rows, so a duplicated Filial resolves last-wins. -/
def filialPremiacaoMap (mg : List MGRow) (filial : String) : Option ℚ :=
  (mg.reverse.find? (fun r => pyStrip r.filial == filial)).map mgRowTotal

/-- The per-row update of `update_gerente_premiacao`: rows of a Filial with
no META_GERENTE entry are untouched; manager-titled non-trainees get the
location total as Premiação TOTAL with the other three premiação columns
cleared; trainees get the location total added to their Premiação TOTAL. -/
def gerentePremiacaoRow (mg : List MGRow) (traineeIds : List String) (r : CalcRow) :
    CalcRow :=
  match filialPremiacaoMap mg (pyStrip r.filial) with
  | none => r
  | some total =>
    let funcao := asciiUpper (pyStrip r.funcao)
    let isTrainee := traineeIds.contains (pyStrip r.id)
    if manager_funcoes.contains funcao && !isTrainee then
      { r with premTotal := float_to_br_text_2 total
               premAcomul := ""
               premPaga := ""
               bonus := "" }
    else if isTrainee then
      let existing := (br_text_to_float r.premTotal).getD 0
      { r with premTotal := float_to_br_text_2 (existing + total) }
    else r

/-- Model of `update_gerente_premiacao` (data_calc.py): an empty
META_GERENTE table leaves calc unchanged; otherwise each row is updated by
`gerentePremiacaoRow`. -/
def update_gerente_premiacao (calcT : List CalcRow) (mg : List MGRow)
    (traineeIds : List String) : List CalcRow :=
  if mg = [] then calcT
  else calcT.map (gerentePremiacaoRow mg traineeIds)

/-- Outcome of one backing-store API call. -/
inductive ApiOutcome
  | ok
  | err500
  | errOther
  deriving DecidableEq

/-- Result of `retry_api_call`: the wrapped call succeeded, a non-500 error
propagated, or the bounded retries were exhausted (`Max retries reached`). -/
inductive RetryResult
  | success
  | raisedOther
  | maxRetriesReached
  deriving DecidableEq

/-- Model of `retry_api_call` (data_calc.py): up to `retries` attempts; a 500
error sleeps and retries, any other error propagates, running out of
attempts raises `Max retries reached`.  The list holds the outcome each
attempt would have. -/
def retry_api_call : ℕ → List ApiOutcome → RetryResult
  | 0, _ => RetryResult.maxRetriesReached
  | _ + 1, [] => RetryResult.maxRetriesReached
  | _ + 1, ApiOutcome.ok :: _ => RetryResult.success
  | retries + 1, ApiOutcome.err500 :: rest => retry_api_call retries rest
  | _ + 1, ApiOutcome.errOther :: _ => RetryResult.raisedOther

/-- Whether a run of the writing step completed or raised. -/
inductive RunResult
  | completed
  | failed
  deriving DecidableEq

/-- Model of `update_calc_sheet` (data_calc.py) acting on the stored cell
grid of the calc worksheet.  The worksheet is cleared first (`ws.clear()`,
not retried: when it raises, the previous content stands); only then is the
new data written through `retry_api_call` with 3 attempts, so a write that
never succeeds leaves the worksheet cleared. -/
def update_calc_sheet (prev newData : List (List String)) (clearOk : Bool)
    (updateAttempts : List ApiOutcome) : RunResult × List (List String) :=
  if !clearOk then (RunResult.failed, prev)
  else
    match retry_api_call 3 updateAttempts with
    | RetryResult.success => (RunResult.completed, newData)
    | _ => (RunResult.failed, [])

/-- Local variables of `main` (data_calc.py) relevant to its data flow,
plus the `sheet` handle that is bound before the pipeline starts. -/
inductive PVar
  | sheet
  | filteredUserDf
  | dfTrainees
  | dfMetaGerente
  | existingMeta
  | calcBase
  | df2Meta
  | dfCalc
  | dfAfast
  | excludedCodigos
  deriving DecidableEq

/-- One statement of `main`: the variables it reads, the variable it
assigns, and whether it writes the META_GERENTE or the calc worksheet. -/
structure PyStmt where
  reads : List PVar
  assigns : Option PVar
  writesMetaGerente : Bool
  writesCalc : Bool
  deriving DecidableEq

/-- Plain statement with no worksheet write. -/
def stmt (reads : List PVar) (assigns : Option PVar) : PyStmt :=
  ⟨reads, assigns, false, false⟩

/-- The statement sequence of `main` (data_calc.py) on the path where
`filtered_user` is non-empty; the flag tells whether `populate_meta_gerente`
returns a non-empty frame (making the META_GERENTE write happen).  Note the
roster is bound to `calc_base` while the next statement reads `df_calc`. -/
def mainStmts (metaGerenteNonEmpty : Bool) : List PyStmt :=
  [stmt [PVar.sheet] (some PVar.filteredUserDf),
   stmt [PVar.filteredUserDf] none,
   stmt [PVar.sheet] (some PVar.dfTrainees),
   stmt [PVar.sheet] (some PVar.dfMetaGerente)]
  ++ (if metaGerenteNonEmpty
      then [⟨[PVar.sheet, PVar.dfMetaGerente], none, true, false⟩] else [])
  ++ [stmt [PVar.sheet] (some PVar.existingMeta),
      stmt [PVar.filteredUserDf] (some PVar.calcBase),
      stmt [PVar.sheet] (some PVar.df2Meta),
      stmt [PVar.dfCalc, PVar.df2Meta] (some PVar.dfCalc),
      stmt [PVar.sheet] (some PVar.dfAfast),
      stmt [PVar.dfCalc, PVar.dfAfast] (some PVar.dfCalc),
      stmt [PVar.df2Meta] (some PVar.excludedCodigos),
      stmt [PVar.dfCalc, PVar.existingMeta] (some PVar.dfCalc),
      stmt [PVar.dfCalc] none,
      stmt [PVar.sheet, PVar.dfCalc, PVar.excludedCodigos] (some PVar.dfCalc),
      stmt [PVar.dfCalc] (some PVar.dfCalc),
      stmt [PVar.dfCalc] (some PVar.dfCalc),
      stmt [PVar.sheet, PVar.dfCalc, PVar.dfTrainees] (some PVar.dfCalc),
      stmt [PVar.sheet] (some PVar.dfMetaGerente)]
  ++ (if metaGerenteNonEmpty
      then [⟨[PVar.sheet, PVar.dfMetaGerente], none, true, false⟩,
            stmt [PVar.dfCalc, PVar.dfMetaGerente, PVar.dfTrainees] (some PVar.dfCalc)]
      else [])
  ++ [⟨[PVar.sheet, PVar.dfCalc], none, false, true⟩]

/-- Scan statements in order with the set of bound variables; report the
index and variable of the first read of an unbound local (Python's
UnboundLocalError), if any. -/
def firstUnboundFrom : List PyStmt → List PVar → ℕ → Option (ℕ × PVar)
  | [], _, _ => none
  | s :: rest, bound, i =>
    match s.reads.find? (fun v => !(bound.contains v)) with
    | some v => some (i, v)
    | none =>
      firstUnboundFrom rest
        (match s.assigns with
         | some v => v :: bound
         | none => bound) (i + 1)

/-- First unbound-variable read of a statement sequence, starting with only
the `sheet` handle bound. -/
def firstUnbound (stmts : List PyStmt) : Option (ℕ × PVar) :=
  firstUnboundFrom stmts [PVar.sheet] 0

theorem digit_facts : ∀ d < 10, charDigit? (digitChar d) = some d
    ∧ digitChar d ≠ '.' ∧ digitChar d ≠ ',' ∧ digitChar d ≠ '-' ∧ digitChar d ≠ '+'
    ∧ isSpaceChar (digitChar d) = false := by decide

theorem mem_natDigitsAux_lt (fuel : ℕ) : ∀ n d : ℕ, d ∈ natDigitsAux fuel n → d < 10 := by
  induction fuel with
  | zero =>
    intro n d h
    cases n <;> simp [natDigitsAux] at h
  | succ fuel ih =>
    intro n d h
    cases n with
    | zero => simp [natDigitsAux] at h
    | succ m =>
      simp only [natDigitsAux, List.mem_cons] at h
      rcases h with h | h
      · exact h ▸ Nat.mod_lt _ (by norm_num)
      · exact ih _ _ h

theorem digitsValAux_append (l₁ l₂ : List Char) (acc : ℕ) :
    digitsValAux acc (l₁ ++ l₂)
      = match digitsValAux acc l₁ with
        | some a => digitsValAux a l₂
        | none => none := by
  induction l₁ generalizing acc with
  | nil => simp [digitsValAux]
  | cons c rest ih =>
    simp only [List.cons_append, digitsValAux]
    cases h : charDigit? c with
    | some d => simp [h, ih]
    | none => simp [h]

theorem digitsValAux_natDigits (fuel : ℕ) :
    ∀ n acc : ℕ, n ≤ fuel →
      digitsValAux acc (((natDigitsAux fuel n).map digitChar).reverse)
        = some (acc * 10 ^ (natDigitsAux fuel n).length + n) := by
  induction fuel with
  | zero =>
    intro n acc h
    interval_cases n
    simp [natDigitsAux, digitsValAux]
  | succ fuel ih =>
    intro n acc h
    cases n with
    | zero => simp [natDigitsAux, digitsValAux]
    | succ m =>
      have hd : (m + 1) / 10 ≤ fuel := by
        have h1 : (m + 1) / 10 < m + 1 := Nat.div_lt_self (Nat.succ_pos m) (by norm_num)
        omega
      show digitsValAux acc
          ((((m + 1) % 10 :: natDigitsAux fuel ((m + 1) / 10)).map digitChar).reverse)
        = some (acc * 10 ^ ((m + 1) % 10 :: natDigitsAux fuel ((m + 1) / 10)).length + (m + 1))
      rw [List.map_cons, List.reverse_cons, digitsValAux_append, ih _ acc hd]
      have hmod : charDigit? (digitChar ((m + 1) % 10)) = some ((m + 1) % 10) :=
        (digit_facts _ (Nat.mod_lt _ (by norm_num))).1
      simp only [digitsValAux, hmod, List.length_cons]
      have h2 : 10 * ((m + 1) / 10) + (m + 1) % 10 = m + 1 := Nat.div_add_mod (m + 1) 10
      congr 1
      generalize (natDigitsAux fuel ((m + 1) / 10)).length = L
      rw [pow_succ, ← mul_assoc]
      generalize acc * 10 ^ L = P
      omega

theorem digitsValAux_natChars (n : ℕ) : digitsValAux 0 (natChars n) = some n := by
  by_cases h : n = 0
  · subst h; decide
  · unfold natChars
    rw [if_neg h]
    simpa using digitsValAux_natDigits n n 0 le_rfl

theorem natChars_shape (n : ℕ) : ∀ c ∈ natChars n, ∃ d, d < 10 ∧ c = digitChar d := by
  intro c hc
  by_cases h : n = 0
  · subst h
    simp only [natChars, if_pos rfl, List.mem_singleton] at hc
    exact ⟨0, by norm_num, by simpa using hc⟩
  · unfold natChars at hc
    rw [if_neg h] at hc
    simp only [List.mem_reverse, List.mem_map] at hc
    obtain ⟨d, hd, rfl⟩ := hc
    exact ⟨d, mem_natDigitsAux_lt _ _ _ hd, rfl⟩

theorem natChars_ne_nil (n : ℕ) : natChars n ≠ [] := by
  unfold natChars
  by_cases h : n = 0
  · simp [h]
  · rw [if_neg h]
    cases n with
    | zero => exact absurd rfl h
    | succ m => simp [natDigitsAux]

theorem natChars_no_dot (n : ℕ) : ∀ c ∈ natChars n, c ≠ '.' := by
  intro c hc
  obtain ⟨d, hd, rfl⟩ := natChars_shape n c hc
  exact (digit_facts d hd).2.1

theorem natChars_no_space (n : ℕ) : ∀ c ∈ natChars n, isSpaceChar c = false := by
  intro c hc
  obtain ⟨d, hd, rfl⟩ := natChars_shape n c hc
  exact (digit_facts d hd).2.2.2.2.2

theorem natChars_no_comma (n : ℕ) : ∀ c ∈ natChars n, c ≠ ',' := by
  intro c hc
  obtain ⟨d, hd, rfl⟩ := natChars_shape n c hc
  exact (digit_facts d hd).2.2.1

theorem mem_groupRev : ∀ (l : List Char), ∀ c ∈ groupRev l, c ∈ l ∨ c = '.'
  | [], c, hc => by simp [groupRev] at hc
  | [a], c, hc => by simpa [groupRev] using Or.inl hc
  | [a, b], c, hc => by simpa [groupRev] using Or.inl hc
  | [a, b, d], c, hc => by simpa [groupRev] using Or.inl hc
  | a :: b :: d :: e :: rest, c, hc => by
    simp only [groupRev] at hc
    simp only [List.mem_cons] at hc ⊢
    rcases hc with rfl | rfl | rfl | rfl | hc
    · exact Or.inl (Or.inl rfl)
    · exact Or.inl (Or.inr (Or.inl rfl))
    · exact Or.inl (Or.inr (Or.inr (Or.inl rfl)))
    · exact Or.inr rfl
    · rcases mem_groupRev (e :: rest) c hc with h | h
      · simp only [List.mem_cons] at h
        rcases h with rfl | h
        · exact Or.inl (Or.inr (Or.inr (Or.inr (Or.inl rfl))))
        · exact Or.inl (Or.inr (Or.inr (Or.inr (Or.inr h))))
      · exact Or.inr h

theorem groupRev_filter_dot : ∀ (l : List Char), (∀ c ∈ l, c ≠ '.') →
    (groupRev l).filter (fun c => decide (c ≠ '.')) = l
  | [], _ => by simp [groupRev]
  | [a], h => by
    simp [groupRev, List.filter_cons, h a (by simp)]
  | [a, b], h => by
    simp [groupRev, List.filter_cons, h a (by simp), h b (by simp)]
  | [a, b, d], h => by
    simp [groupRev, List.filter_cons, h a (by simp), h b (by simp), h d (by simp)]
  | a :: b :: d :: e :: rest, h => by
    have ih := groupRev_filter_dot (e :: rest)
      (fun x hx => h x (by simp only [List.mem_cons] at hx ⊢; tauto))
    simp only [groupRev]
    simp [List.filter_cons, h a (by simp), h b (by simp), h d (by simp)]
    simpa using ih

theorem dropWhile_space_eq_self (l : List Char) (h : ∀ c ∈ l, isSpaceChar c = false) :
    l.dropWhile isSpaceChar = l := by
  cases l with
  | nil => rfl
  | cons c rest => simp [List.dropWhile, h c (by simp)]

theorem trimChars_eq_self (l : List Char) (h : ∀ c ∈ l, isSpaceChar c = false) :
    trimChars l = l := by
  unfold trimChars
  rw [dropWhile_space_eq_self l h,
    dropWhile_space_eq_self _ (fun c hc => h c (List.mem_reverse.mp hc)),
    List.reverse_reverse]

theorem splitDot_append (l r : List Char) (h : ∀ c ∈ l, c ≠ '.') :
    splitDot (l ++ '.' :: r) = (l, some r) := by
  induction l with
  | nil => simp [splitDot]
  | cons c rest ih =>
    have hc : c ≠ '.' := h c (by simp)
    have ih2 := ih (fun x hx => h x (by simp [hx]))
    simp [splitDot, if_neg hc, ih2]

theorem twoDigit_facts : ∀ d < 100, digitsValAux 0 (twoDigitStr d).data = some d
    ∧ (twoDigitStr d).data.length = 2
    ∧ ∀ c ∈ (twoDigitStr d).data,
        (c ≠ '.' ∧ c ≠ ',' ∧ isSpaceChar c = false ∧ c ≠ '-' ∧ c ≠ '+') := by decide

theorem map_commaToDot_id (l : List Char) (h : ∀ c ∈ l, c ≠ ',') :
    l.map (fun c => if c = ',' then '.' else c) = l := by
  induction l with
  | nil => rfl
  | cons c rest ih =>
    rw [List.map_cons, if_neg (h c (by simp)), ih (fun x hx => h x (by simp [hx]))]

theorem pyFloat_digit_head (c : Char) (rest : List Char)
    (hsp : ∀ x ∈ c :: rest, isSpaceChar x = false)
    (hminus : c ≠ '-') (hplus : c ≠ '+') (s : String) (hs : s.data = c :: rest) :
    pyFloat? s = pyFloatUnsigned? (c :: rest) := by
  unfold pyFloat?
  rw [hs, trimChars_eq_self _ hsp]
  simp [if_neg hminus, if_neg hplus]

theorem mem_groupedNatStr (q : ℕ) :
    ∀ c ∈ (groupedNatStr q).data, c ∈ natChars q ∨ c = '.' := by
  intro c hc
  unfold groupedNatStr at hc
  rcases mem_groupRev _ c (List.mem_reverse.mp hc) with h | h
  · exact Or.inl (List.mem_reverse.mp h)
  · exact Or.inr h

theorem filter_dot_groupedNatStr (q : ℕ) :
    (groupedNatStr q).data.filter (fun c => decide (c ≠ '.')) = natChars q := by
  unfold groupedNatStr
  rw [List.filter_reverse,
    groupRev_filter_dot _ (fun c hc => natChars_no_dot q c (List.mem_reverse.mp hc)),
    List.reverse_reverse]

theorem br_parse_body (q r : ℕ) (hr : r < 100) :
    br_text_to_float (groupedNatStr q ++ "," ++ twoDigitStr r)
      = some (((q : ℤ) : ℚ) + ((r : ℤ) : ℚ) / 100) := by
  obtain ⟨hfr, hfl, hfc⟩ := twoDigit_facts r hr
  have hdata : (groupedNatStr q ++ "," ++ twoDigitStr r).data
      = (groupedNatStr q).data ++ [','] ++ (twoDigitStr r).data := by
    simp [String.data_append]
  have hspace : ∀ c ∈ (groupedNatStr q).data ++ [','] ++ (twoDigitStr r).data,
      isSpaceChar c = false := by
    intro c hc
    simp only [List.append_assoc, List.mem_append, List.mem_singleton] at hc
    rcases hc with hc | hc | hc
    · rcases mem_groupedNatStr q c hc with h | h
      · exact natChars_no_space q c h
      · subst h; decide
    · subst hc; decide
    · exact (hfc c hc).2.2.1
  have hne : (groupedNatStr q ++ "," ++ twoDigitStr r) ≠ "" := by
    intro h
    have := congrArg String.data h
    rw [hdata] at this
    simp at this
  have hps : pyStrip (groupedNatStr q ++ "," ++ twoDigitStr r)
      = groupedNatStr q ++ "," ++ twoDigitStr r := by
    show String.mk (trimChars (groupedNatStr q ++ "," ++ twoDigitStr r).data) = _
    rw [hdata, trimChars_eq_self _ hspace, ← hdata]
  unfold br_text_to_float
  rw [hps, if_neg hne]
  have hfT : (twoDigitStr r).data.filter (fun c => decide (c ≠ '.'))
      = (twoDigitStr r).data :=
    List.filter_eq_self.mpr (fun c hc => by simpa using (hfc c hc).1)
  have hfilter : (rmChar '.' (groupedNatStr q ++ "," ++ twoDigitStr r)).data
      = natChars q ++ ',' :: (twoDigitStr r).data := by
    show ((groupedNatStr q ++ "," ++ twoDigitStr r).data.filter
        (fun c => decide (c ≠ '.'))) = _
    rw [hdata, List.filter_append, List.filter_append, filter_dot_groupedNatStr, hfT]
    simp
  have hmap : (commaToDot (rmChar '.' (groupedNatStr q ++ "," ++ twoDigitStr r))).data
      = natChars q ++ '.' :: (twoDigitStr r).data := by
    show ((rmChar '.' (groupedNatStr q ++ "," ++ twoDigitStr r)).data.map
        (fun c => if c = ',' then '.' else c)) = _
    rw [hfilter, List.map_append, List.map_cons,
      map_commaToDot_id _ (natChars_no_comma q),
      map_commaToDot_id _ (fun c hc => (hfc c hc).2.1)]
    simp
  obtain ⟨c₀, I₂, hI⟩ := List.exists_cons_of_ne_nil (natChars_ne_nil q)
  have hc₀ : ∃ d, d < 10 ∧ c₀ = digitChar d := natChars_shape q c₀ (by rw [hI]; simp)
  obtain ⟨d₀, hd₀, rfl⟩ := hc₀
  have hcons : natChars q ++ '.' :: (twoDigitStr r).data
      = digitChar d₀ :: (I₂ ++ '.' :: (twoDigitStr r).data) := by
    rw [hI]; simp
  have hspace2 : ∀ x ∈ digitChar d₀ :: (I₂ ++ '.' :: (twoDigitStr r).data),
      isSpaceChar x = false := by
    intro x hx
    rw [← hcons] at hx
    simp only [List.mem_append, List.mem_cons] at hx
    rcases hx with hx | hx | hx
    · exact natChars_no_space q x hx
    · subst hx; decide
    · exact (hfc x hx).2.2.1
  rw [pyFloat_digit_head (digitChar d₀) (I₂ ++ '.' :: (twoDigitStr r).data) hspace2
    (digit_facts d₀ hd₀).2.2.2.1 (digit_facts d₀ hd₀).2.2.2.2.1 _ (by rw [hmap, hcons]),
    ← hcons]
  unfold pyFloatUnsigned?
  rw [splitDot_append _ _ (natChars_no_dot q)]
  have hguard : ¬(natChars q = [] ∧ (twoDigitStr r).data = []) := by
    intro h
    exact natChars_ne_nil q h.1
  simp only [if_neg hguard, digitsValAux_natChars, hfr, hfl]
  norm_num

theorem rhe_intCast (k : ℤ) : rhe ((k : ℚ)) = k := by
  unfold rhe
  rw [Int.floor_intCast]
  norm_num

theorem rhe_nonneg (x : ℚ) (hx : 0 ≤ x) : 0 ≤ rhe x := by
  unfold rhe
  dsimp only
  have h0 : (0 : ℤ) ≤ ⌊x⌋ := Int.floor_nonneg.mpr hx
  split_ifs <;> omega

theorem float_to_br_text_eq (x : ℚ) :
    float_to_br_text x
      = groupedNatStr ((rhe (x * 100)).natAbs / 100) ++ ","
        ++ twoDigitStr ((rhe (x * 100)).natAbs % 100) := by
  unfold float_to_br_text roundQ2
  dsimp only
  set n : ℤ := rhe (x * 100) with hn
  set m : ℕ := n.natAbs with hm
  have habs : |(n : ℚ) / 100| = (m : ℚ) / 100 := by
    rw [abs_div, hm, Int.cast_natAbs, Int.cast_abs]
    norm_num
  have hfl : ⌊(m : ℚ) / 100⌋ = ((m / 100 : ℕ) : ℤ) := by
    have h1 := Rat.floor_intCast_div_natCast (m : ℤ) 100
    push_cast at h1
    rw [h1]
    omega
  rw [habs, hfl]
  have hip : (((m / 100 : ℕ) : ℤ)).toNat = m / 100 := by omega
  rw [hip]
  have hsub : ((m : ℚ) / 100 - (((m / 100 : ℕ) : ℤ) : ℚ)) * 100
      = (((m % 100 : ℕ) : ℤ) : ℚ) := by
    push_cast
    rw [sub_mul, div_mul_cancel₀ _ (by norm_num : (100 : ℚ) ≠ 0)]
    exact_mod_cast (by omega : (m : ℤ) - (m / 100 : ℕ) * 100 = ((m % 100 : ℕ) : ℤ))
  rw [hsub, rhe_intCast]
  have hdp : (((m % 100 : ℕ) : ℤ)).toNat = m % 100 := by omega
  rw [hdp]

theorem float_to_br_text_2_eq (x : ℚ) :
    float_to_br_text_2 x
      = (if rhe (x * 100) < 0 then "-" else "")
        ++ (groupedNatStr ((rhe (x * 100)).natAbs / 100) ++ ","
            ++ twoDigitStr ((rhe (x * 100)).natAbs % 100)) := by
  have hbody := float_to_br_text_eq x
  unfold float_to_br_text roundQ2 at hbody
  unfold float_to_br_text_2 roundQ2
  dsimp only
  dsimp only at hbody
  set n : ℤ := rhe (x * 100) with hn
  rw [hbody]
  have hv : ((n : ℚ) / 100 < 0) ↔ (n < 0) := by
    constructor
    · intro h
      by_contra hc
      push_neg at hc
      have h0 : (0 : ℚ) ≤ (n : ℚ) := by exact_mod_cast hc
      have h2 : (0 : ℚ) ≤ (n : ℚ) / 100 := by positivity
      linarith
    · intro h
      have h1 : (n : ℚ) < 0 := by exact_mod_cast h
      exact div_neg_of_neg_of_pos h1 (by norm_num)
  by_cases hneg : n < 0
  · rw [if_pos (hv.mpr hneg), if_pos hneg]
  · rw [if_neg (fun hc => hneg (hv.mp hc)), if_neg hneg]
    simp

theorem pyFloatUnsigned_eval (q r : ℕ) (hr : r < 100) :
    pyFloatUnsigned? (natChars q ++ '.' :: (twoDigitStr r).data)
      = some (((q : ℤ) : ℚ) + ((r : ℤ) : ℚ) / 100) := by
  obtain ⟨hfr, hfl, _⟩ := twoDigit_facts r hr
  unfold pyFloatUnsigned?
  rw [splitDot_append _ _ (natChars_no_dot q)]
  have hguard : ¬(natChars q = [] ∧ (twoDigitStr r).data = []) :=
    fun h => natChars_ne_nil q h.1
  simp only [if_neg hguard, digitsValAux_natChars, hfr, hfl]
  norm_num

theorem br_parse_neg_body (q r : ℕ) (hr : r < 100) :
    br_text_to_float ("-" ++ (groupedNatStr q ++ "," ++ twoDigitStr r))
      = some (-(((q : ℤ) : ℚ) + ((r : ℤ) : ℚ) / 100)) := by
  obtain ⟨hfr, hfl, hfc⟩ := twoDigit_facts r hr
  have hdata : ("-" ++ (groupedNatStr q ++ "," ++ twoDigitStr r)).data
      = '-' :: ((groupedNatStr q).data ++ [','] ++ (twoDigitStr r).data) := by
    simp [String.data_append]
  have hspace : ∀ c ∈ '-' :: ((groupedNatStr q).data ++ [','] ++ (twoDigitStr r).data),
      isSpaceChar c = false := by
    intro c hc
    rcases List.mem_cons.mp hc with rfl | hc2
    · decide
    · simp only [List.append_assoc, List.mem_append, List.mem_singleton] at hc2
      rcases hc2 with hc2 | hc2 | hc2
      · rcases mem_groupedNatStr q c hc2 with h | h
        · exact natChars_no_space q c h
        · subst h; decide
      · subst hc2; decide
      · exact (hfc c hc2).2.2.1
  have hne : ("-" ++ (groupedNatStr q ++ "," ++ twoDigitStr r)) ≠ "" := by
    intro h
    have h2 := congrArg String.data h
    rw [hdata] at h2
    simp at h2
  have hps : pyStrip ("-" ++ (groupedNatStr q ++ "," ++ twoDigitStr r))
      = "-" ++ (groupedNatStr q ++ "," ++ twoDigitStr r) := by
    show String.mk (trimChars ("-" ++ (groupedNatStr q ++ "," ++ twoDigitStr r)).data) = _
    rw [hdata, trimChars_eq_self _ hspace, ← hdata]
  unfold br_text_to_float
  rw [hps, if_neg hne]
  have hfT : (twoDigitStr r).data.filter (fun c => decide (c ≠ '.'))
      = (twoDigitStr r).data :=
    List.filter_eq_self.mpr (fun c hc => by simpa using (hfc c hc).1)
  have hfilter : (rmChar '.' ("-" ++ (groupedNatStr q ++ "," ++ twoDigitStr r))).data
      = '-' :: (natChars q ++ ',' :: (twoDigitStr r).data) := by
    show (("-" ++ (groupedNatStr q ++ "," ++ twoDigitStr r)).data.filter
        (fun c => decide (c ≠ '.'))) = _
    rw [hdata, List.filter_cons]
    simp only [List.filter_append, filter_dot_groupedNatStr, hfT]
    simp
  have hmap : (commaToDot (rmChar '.'
        ("-" ++ (groupedNatStr q ++ "," ++ twoDigitStr r)))).data
      = '-' :: (natChars q ++ '.' :: (twoDigitStr r).data) := by
    show ((rmChar '.' ("-" ++ (groupedNatStr q ++ "," ++ twoDigitStr r))).data.map
        (fun c => if c = ',' then '.' else c)) = _
    rw [hfilter, List.map_cons, List.map_append, List.map_cons,
      map_commaToDot_id _ (natChars_no_comma q),
      map_commaToDot_id _ (fun c hc => (hfc c hc).2.1)]
    simp
  have hsp2 : ∀ x ∈ '-' :: (natChars q ++ '.' :: (twoDigitStr r).data),
      isSpaceChar x = false := by
    intro x hx
    simp only [List.mem_cons, List.mem_append] at hx
    rcases hx with rfl | hx | hx
    · decide
    · exact natChars_no_space q x hx
    · rcases hx with rfl | hx
      · decide
      · exact (hfc x hx).2.2.1
  unfold pyFloat?
  rw [hmap, trimChars_eq_self _ hsp2]
  dsimp only
  rw [if_pos rfl, pyFloatUnsigned_eval q r hr]
  rfl

theorem br_parse_body_val (n : ℤ) (hn : 0 ≤ n) :
    br_text_to_float (groupedNatStr (n.natAbs / 100) ++ ","
        ++ twoDigitStr (n.natAbs % 100))
      = some ((n : ℚ) / 100) := by
  rw [br_parse_body _ _ (Nat.mod_lt _ (by norm_num))]
  congr 1
  have expand : (((n.natAbs / 100 : ℕ) : ℤ) : ℚ) + (((n.natAbs % 100 : ℕ) : ℤ) : ℚ) / 100
      = ((((n.natAbs / 100) * 100 + n.natAbs % 100 : ℕ) : ℤ) : ℚ) / 100 := by
    push_cast
    ring
  rw [expand, (by omega : (n.natAbs / 100) * 100 + n.natAbs % 100 = n.natAbs)]
  have hm : ((n.natAbs : ℤ) : ℚ) = (n : ℚ) := by
    have h1 : (n.natAbs : ℤ) = n := by omega
    exact_mod_cast congrArg (fun z => ((z : ℤ) : ℚ)) h1
  rw [hm]

theorem br_parse_neg_body_val (n : ℤ) (hn : n < 0) :
    br_text_to_float ("-" ++ (groupedNatStr (n.natAbs / 100) ++ ","
        ++ twoDigitStr (n.natAbs % 100)))
      = some ((n : ℚ) / 100) := by
  rw [br_parse_neg_body _ _ (Nat.mod_lt _ (by norm_num))]
  congr 1
  have expand : (((n.natAbs / 100 : ℕ) : ℤ) : ℚ) + (((n.natAbs % 100 : ℕ) : ℤ) : ℚ) / 100
      = ((((n.natAbs / 100) * 100 + n.natAbs % 100 : ℕ) : ℤ) : ℚ) / 100 := by
    push_cast
    ring
  rw [expand, (by omega : (n.natAbs / 100) * 100 + n.natAbs % 100 = n.natAbs)]
  have hm : ((n.natAbs : ℤ) : ℚ) = -(n : ℚ) := by
    have h1 : (n.natAbs : ℤ) = -n := by omega
    exact_mod_cast congrArg (fun z => ((z : ℤ) : ℚ)) h1
  rw [hm, neg_div]
  ring

theorem br_roundtrip_nonneg (x : ℚ) (hx : 0 ≤ x) :
    br_text_to_float (float_to_br_text x) = some (roundQ2 x) := by
  have hn : 0 ≤ rhe (x * 100) := rhe_nonneg _ (mul_nonneg hx (by norm_num))
  rw [float_to_br_text_eq x]
  exact br_parse_body_val _ hn

theorem br_roundtrip_signed (x : ℚ) :
    br_text_to_float (float_to_br_text_2 x) = some (roundQ2 x) := by
  rw [float_to_br_text_2_eq x]
  by_cases hn : rhe (x * 100) < 0
  · rw [if_pos hn]
    exact br_parse_neg_body_val _ hn
  · rw [if_neg hn]
    have h0 : 0 ≤ rhe (x * 100) := le_of_not_lt hn
    have := br_parse_body_val _ h0
    simpa using this

/-- C8 counterexample: the unsigned formatter drops the sign (it renders
`abs(value)` with no sign prefix), so the round-trip fails on x = -1: the
parse returns 1 while round(-1, 2) = -1. -/
theorem C8_counterexample :
    br_text_to_float (float_to_br_text (-1 : ℚ)) = some (1 : ℚ)
      ∧ roundQ2 (-1 : ℚ) = (-1 : ℚ) ∧ ((1 : ℚ) ≠ (-1 : ℚ)) := by
  refine ⟨?_, ?_, ?_⟩ <;> with_unfolding_all decide

/-- C8 (amended): parsing the text produced by the formatters returns the
input rounded to 2 decimal places, for every non-negative x in the case of
`float_to_br_text` (whose output drops the sign), and for every finite x in
the case of the signed formatter `float_to_br_text_2`. -/
theorem C8_amended_roundtrip :
    (∀ x : ℚ, 0 ≤ x → br_text_to_float (float_to_br_text x) = some (roundQ2 x))
    ∧ (∀ x : ℚ, br_text_to_float (float_to_br_text_2 x) = some (roundQ2 x)) :=
  ⟨br_roundtrip_nonneg, br_roundtrip_signed⟩

/-- Witness for C8 (amended) at x = 5/4 and x = -5/4. -/
theorem C8_amended_roundtrip_witness :
    br_text_to_float (float_to_br_text (5 / 4 : ℚ)) = some (5 / 4 : ℚ)
      ∧ br_text_to_float (float_to_br_text_2 (-(5 / 4) : ℚ)) = some (-(5 / 4) : ℚ) := by
  have h1 := C8_amended_roundtrip.1 (5 / 4 : ℚ) (by norm_num)
  have h2 := C8_amended_roundtrip.2 (-(5 / 4) : ℚ)
  rw [(by with_unfolding_all decide : roundQ2 (5 / 4 : ℚ) = (5 / 4 : ℚ))] at h1
  rw [(by with_unfolding_all decide : roundQ2 (-(5 / 4) : ℚ) = (-(5 / 4) : ℚ))] at h2
  exact ⟨h1, h2⟩

/-- C1: on the non-empty `filtered_user` path, whether or not the
META_GERENTE frame is non-empty (and hence written), the first unbound-local
read of `main` is the `apply_2_meta_overrides(df_calc, ...)` statement,
which reads the never-assigned `df_calc` (the roster was bound to
`calc_base` instead); it precedes the calc-sheet write, which is therefore
never reached, while the META_GERENTE write (when taken) precedes the
error. -/
theorem C1_main_unbound_read :
    (firstUnbound (mainStmts false) = some (7, PVar.dfCalc)
      ∧ ((mainStmts false).get? 7).map PyStmt.reads = some [PVar.dfCalc, PVar.df2Meta]
      ∧ ((mainStmts false).get? 5).map PyStmt.assigns = some (some PVar.calcBase)
      ∧ ((mainStmts false).take 7).all (fun s => !s.writesCalc) = true
      ∧ ((mainStmts false).drop 7).any (fun s => s.writesCalc) = true)
    ∧ (firstUnbound (mainStmts true) = some (8, PVar.dfCalc)
      ∧ ((mainStmts true).get? 8).map PyStmt.reads = some [PVar.dfCalc, PVar.df2Meta]
      ∧ ((mainStmts true).take 8).all (fun s => !s.writesCalc) = true
      ∧ ((mainStmts true).take 8).any (fun s => s.writesMetaGerente) = true
      ∧ ((mainStmts true).drop 8).any (fun s => s.writesCalc) = true) := by
  decide

/-- C10 counterexample: with the previous calc content non-empty, a clear
that succeeds followed by an update whose three attempts all fail with 500
leaves the worksheet cleared: the run fails, the final content is neither
the previous nor the new data. -/
theorem C10_counterexample :
    update_calc_sheet [["prev"]] [["new"]] true
        [ApiOutcome.err500, ApiOutcome.err500, ApiOutcome.err500]
      = (RunResult.failed, [])
    ∧ ([] : List (List String)) ≠ [["prev"]]
    ∧ ([] : List (List String)) ≠ [["new"]] := by
  refine ⟨by decide, by decide, by decide⟩

/-- C10 (amended): the final write is clear-then-update, not atomic.  A
failure of the clear call leaves the previous output intact, and a
successful update within the bounded retries writes the new data; but when
the clear succeeds and the retried update never does, the worksheet is left
cleared — the previous table is lost without the new data being written. -/
theorem C10_amended (prev newData : List (List String)) (clearOk : Bool)
    (attempts : List ApiOutcome) :
    update_calc_sheet prev newData clearOk attempts
      = if clearOk = false then (RunResult.failed, prev)
        else if retry_api_call 3 attempts = RetryResult.success
          then (RunResult.completed, newData)
        else (RunResult.failed, []) := by
  cases clearOk with
  | false => simp [update_calc_sheet]
  | true =>
    simp only [update_calc_sheet, Bool.not_true, Bool.false_eq_true, if_false]
    cases h : retry_api_call 3 attempts <;> simp [h]

/-- C2 counterexample: a GERENTE row whose Filial has a META_GERENTE entry
and that is not a trainee gets its Premiação TOTAL replaced and Premiação
Paga and BONUS blanked — but its accumulated commission text (Premiação
Acomul., here "10,00") is blanked as well, not kept visible. -/
theorem C2_counterexample :
    update_gerente_premiacao
        [⟨"11", "1", "1", "Ana", "", "", "", "", "GERENTE", "10,00", "", "", ""⟩]
        [⟨"1", "200,00", "", "", "", ""⟩] []
      = [⟨"11", "1", "1", "Ana", "", "", "", "", "GERENTE", "", "", "", "200,00"⟩]
    ∧ ("" : String) ≠ "10,00" := by
  refine ⟨by with_unfolding_all decide, by decide⟩

/-- C2 (amended): for a calc row whose Filial has a location rollup total t:
if its title is manager-tier and its ID is not in the trainee set, the
Manager Override Layer sets Premiação TOTAL to t and blanks Premiação Paga,
BONUS and also Premiação Acomul.; if its ID is in the trainee set
(regardless of title), it adds t to the existing Premiação TOTAL and leaves
Premiação Paga, BONUS and Premiação Acomul. unchanged. -/
theorem C2_amended (calcT : List CalcRow) (mg : List MGRow) (tr : List String)
    (i : ℕ) (r r' : CalcRow) (hr : calcT.get? i = some r)
    (hr' : (update_gerente_premiacao calcT mg tr).get? i = some r')
    (t : ℚ) (ht : filialPremiacaoMap mg (pyStrip r.filial) = some t) :
    (manager_funcoes.contains (asciiUpper (pyStrip r.funcao)) = true →
      tr.contains (pyStrip r.id) = false →
      r'.premTotal = float_to_br_text_2 t ∧ r'.premAcomul = ""
        ∧ r'.premPaga = "" ∧ r'.bonus = "")
    ∧ (tr.contains (pyStrip r.id) = true →
      r'.premTotal = float_to_br_text_2 ((br_text_to_float r.premTotal).getD 0 + t)
        ∧ r'.premPaga = r.premPaga ∧ r'.bonus = r.bonus
        ∧ r'.premAcomul = r.premAcomul) := by
  have hmg : mg ≠ [] := by
    intro h
    rw [h] at ht
    simp [filialPremiacaoMap] at ht
  have hup : update_gerente_premiacao calcT mg tr
      = calcT.map (gerentePremiacaoRow mg tr) := by
    unfold update_gerente_premiacao
    rw [if_neg hmg]
  rw [hup, List.get?_map, hr] at hr'
  simp only [Option.map_some'] at hr'
  have hr2 : gerentePremiacaoRow mg tr r = r' := Option.some.inj hr'
  constructor
  · intro hm htr
    rw [← hr2]
    unfold gerentePremiacaoRow
    rw [ht]
    have hm2 : asciiUpper (pyStrip r.funcao) ∈ manager_funcoes := by simpa using hm
    have htr2 : pyStrip r.id ∉ tr := by simpa using htr
    simp [hm2, htr2]
  · intro htr
    rw [← hr2]
    unfold gerentePremiacaoRow
    rw [ht]
    have htr2 : pyStrip r.id ∈ tr := by simpa using htr
    simp [htr2]

/-- Witness for C2 (amended): a trainee row with an existing total of 1,00
gains the location total 200. -/
theorem C2_amended_witness :
    ((update_gerente_premiacao
        [⟨"11", "1", "1", "Ana", "", "", "", "", "GERENTE", "", "", "", "1,00"⟩]
        [⟨"1", "200,00", "", "", "", ""⟩] ["11"]).get? 0).map CalcRow.premTotal
      = some "201,00" := by
  have h := C2_amended
    [⟨"11", "1", "1", "Ana", "", "", "", "", "GERENTE", "", "", "", "1,00"⟩]
    [⟨"1", "200,00", "", "", "", ""⟩] ["11"] 0
    ⟨"11", "1", "1", "Ana", "", "", "", "", "GERENTE", "", "", "", "1,00"⟩
    ⟨"11", "1", "1", "Ana", "", "", "", "", "GERENTE", "", "", "", "201,00"⟩
    (by decide) (by with_unfolding_all decide) 200
    (by with_unfolding_all decide)
  have h2 := h.2 (by decide)
  rw [(by with_unfolding_all decide :
    ((update_gerente_premiacao
        [⟨"11", "1", "1", "Ana", "", "", "", "", "GERENTE", "", "", "", "1,00"⟩]
        [⟨"1", "200,00", "", "", "", ""⟩] ["11"]).get? 0)
      = some ⟨"11", "1", "1", "Ana", "", "", "", "", "GERENTE", "", "", "", "201,00"⟩)]
  rfl

/-- C5: after a rebuild, a roster row whose stripped ID occurred in the
prior output with a unique non-empty Meta value gets exactly that (stripped)
Meta value restored by the Persistence Carry-Forward, even though the rest
of the roster was regenerated from scratch. -/
theorem C5_meta_carried (prior : List PriorRow) (calcT : List CalcRow)
    (i : ℕ) (r r' : CalcRow) (hr : calcT.get? i = some r)
    (hr' : (restore_meta calcT (read_existing_meta prior)).get? i = some r')
    (p : PriorRow) (hp : p ∈ prior) (hid : pyStrip p.id = pyStrip r.id)
    (hidne : pyStrip r.id ≠ "") (hmne : pyStrip p.meta ≠ "")
    (huniq : ∀ q ∈ prior, pyStrip q.id = pyStrip r.id →
      pyStrip q.meta = pyStrip p.meta) :
    r'.meta = pyStrip p.meta := by
  set M := read_existing_meta prior with hM
  have hmem : (pyStrip p.id, pyStrip p.meta) ∈ M := by
    rw [hM]
    unfold read_existing_meta
    apply List.mem_filter.mpr
    refine ⟨List.mem_map.mpr ⟨p, hp, rfl⟩, ?_⟩
    simp only [bne_iff_ne]
    simp [hid, hidne, hmne]
  have hMne : M ≠ [] := by
    intro h
    rw [h] at hmem
    exact absurd hmem (List.not_mem_nil _)
  have hup : restore_meta calcT M
      = calcT.map (fun x => { x with meta := (dictGet? M (pyStrip x.id)).getD "" }) := by
    unfold restore_meta
    rw [if_neg hMne]
  rw [hup, List.get?_map, hr] at hr'
  simp only [Option.map_some'] at hr'
  have hr2 := Option.some.inj hr'
  have hget : dictGet? M (pyStrip r.id) = some (pyStrip p.meta) := by
    unfold dictGet?
    cases hf : M.reverse.find? (fun q => q.1 == pyStrip r.id) with
    | none =>
      have h2 := List.find?_eq_none.mp hf (pyStrip p.id, pyStrip p.meta)
        (List.mem_reverse.mpr hmem)
      simp [hid] at h2
    | some q =>
      have hq1 := List.find?_some hf
      have hq3 : q ∈ M := List.mem_reverse.mp (List.mem_of_find?_eq_some hf)
      rw [hM] at hq3
      unfold read_existing_meta at hq3
      obtain ⟨hq4, _⟩ := List.mem_filter.mp hq3
      obtain ⟨x, hx, hxq⟩ := List.mem_map.mp hq4
      have hkey : q.1 = pyStrip r.id := by simpa using hq1
      have hxid : pyStrip x.id = pyStrip r.id := by
        rw [← hxq] at hkey
        exact hkey
      have hxmeta : pyStrip x.meta = pyStrip p.meta := huniq x hx hxid
      simp only [Option.map_some']
      rw [← hxq]
      simp [hxmeta]
  rw [← hr2]
  simp [hget]

/-- Witness for C5 at a one-row roster and a one-row prior table. -/
theorem C5_meta_carried_witness :
    ((restore_meta [⟨"11", "1", "1", "Ana", "", "", "", "", "GERENTE", "", "", "", ""⟩]
        (read_existing_meta [⟨"11", "5,00"⟩])).get? 0).map CalcRow.meta
      = some "5,00" := by
  have h := C5_meta_carried [⟨"11", "5,00"⟩]
    [⟨"11", "1", "1", "Ana", "", "", "", "", "GERENTE", "", "", "", ""⟩] 0
    ⟨"11", "1", "1", "Ana", "", "", "", "", "GERENTE", "", "", "", ""⟩
    ⟨"11", "1", "1", "Ana", "5,00", "", "", "", "GERENTE", "", "", "", ""⟩
    (by decide) (by decide) ⟨"11", "5,00"⟩ (by simp) (by decide) (by decide)
    (by decide)
    (by intro q hq h2
        simp only [List.mem_singleton] at hq
        subst hq
        rfl)
  rw [(by decide :
    ((restore_meta [⟨"11", "1", "1", "Ana", "", "", "", "", "GERENTE", "", "", "", ""⟩]
        (read_existing_meta [⟨"11", "5,00"⟩])).get? 0)
      = some (⟨"11", "1", "1", "Ana", "5,00", "", "", "", "GERENTE", "", "", "", ""⟩ : CalcRow))]
  rfl

theorem length_filter_split (l : List CalcRow) (p : CalcRow → Bool) :
    (l.filter p).length + (l.filter (fun r => !(p r))).length = l.length := by
  induction l with
  | nil => rfl
  | cons a t ih =>
    by_cases h : p a <;> simp [List.filter_cons, h, ← ih] <;> omega

/-- C6 counterexample: a calc row matching no AFASTAMENTOS directive is
nevertheless modified by the exclusion step — its Colaborador is trimmed and
uppercased in place ("joao" becomes "JOAO"), refuting "every non-matching
row is unchanged". -/
theorem C6_counterexample :
    apply_afastamentos
        [⟨"11", "1", "1", "joao", "", "", "", "", "GERENTE", "", "", "", ""⟩]
        (read_afastamentos [⟨"2", "x"⟩])
      = [⟨"11", "1", "1", "JOAO", "", "", "", "", "GERENTE", "", "", "", ""⟩]
    ∧ ((⟨"11", "1", "1", "JOAO", "", "", "", "", "GERENTE", "", "", "", ""⟩ : CalcRow)
        ≠ ⟨"11", "1", "1", "joao", "", "", "", "", "GERENTE", "", "", "", ""⟩)
    ∧ afastMatches (read_afastamentos [⟨"2", "x"⟩])
        (normAfast ⟨"11", "1", "1", "joao", "", "", "", "", "GERENTE", "", "", "", ""⟩)
      = false := by
  refine ⟨by decide, by decide, by decide⟩

/-- C6 (amended): applying a non-empty set of exclusion directives removes
exactly the rows whose normalised (Filial, Colaborador) matches some
directive: the row count decreases by exactly the number of matching rows,
every non-matching row survives with its fields unchanged except that
Filial is trimmed and Colaborador is trimmed and uppercased, and every
surviving row matches no directive. -/
theorem C6_amended (calcT : List CalcRow) (afast : List AfastRow) (hne : afast ≠ []) :
    ((apply_afastamentos calcT afast).length
        + ((calcT.map normAfast).filter (fun r => afastMatches afast r)).length
      = calcT.length)
    ∧ (∀ r ∈ calcT, afastMatches afast (normAfast r) = false →
        normAfast r ∈ apply_afastamentos calcT afast)
    ∧ (∀ r ∈ apply_afastamentos calcT afast,
        afastMatches afast r = false ∧ r ∈ calcT.map normAfast) := by
  have hup : apply_afastamentos calcT afast
      = (calcT.map normAfast).filter (fun r => !(afastMatches afast r)) := by
    unfold apply_afastamentos
    rw [if_neg hne]
  refine ⟨?_, ?_, ?_⟩
  · rw [hup]
    have h1 := length_filter_split (calcT.map normAfast) (fun r => afastMatches afast r)
    have h2 : (calcT.map normAfast).length = calcT.length := List.length_map _ _
    omega
  · intro r hr hm
    rw [hup]
    exact List.mem_filter.mpr ⟨List.mem_map.mpr ⟨r, hr, rfl⟩, by simp [hm]⟩
  · intro r hr
    rw [hup] at hr
    obtain ⟨h1, h2⟩ := List.mem_filter.mp hr
    exact ⟨by simpa using h2, h1⟩

/-- Witness for C6 (amended) on a two-row table with one matching row. -/
theorem C6_amended_witness :
    (apply_afastamentos
        [⟨"11", "1", "1", "ana", "", "", "", "", "GERENTE", "", "", "", ""⟩,
         ⟨"12", "1", "2", "bia", "", "", "", "", "GERENTE", "", "", "", ""⟩]
        [⟨"1", "ANA"⟩]).length
      + (([⟨"11", "1", "1", "ana", "", "", "", "", "GERENTE", "", "", "", ""⟩,
           ⟨"12", "1", "2", "bia", "", "", "", "", "GERENTE", "", "", "", ""⟩].map
          normAfast).filter (fun r => afastMatches [⟨"1", "ANA"⟩] r)).length
      = 2 := by
  have h := C6_amended
    [⟨"11", "1", "1", "ana", "", "", "", "", "GERENTE", "", "", "", ""⟩,
     ⟨"12", "1", "2", "bia", "", "", "", "", "GERENTE", "", "", "", ""⟩]
    [⟨"1", "ANA"⟩] (by decide)
  exact h.1

theorem filter_filter_absorb (l : List VendaRow) (p q : VendaRow → Bool)
    (h : ∀ v, p v = true → q v = true) :
    (l.filter q).filter p = l.filter p := by
  induction l with
  | nil => rfl
  | cons a t ih =>
    by_cases hq : q a = true
    · by_cases hp : p a = true <;> simp [List.filter_cons, hp, hq, ih]
    · have hp : p a = false := by
        cases hpc : p a
        · rfl
        · exact absurd (h a hpc) hq
      simp [List.filter_cons, hp, hq, ih]

/-- C3: when VENDAS_VENDEDOR is non-empty, a calc row whose Código is in the
2_META exception set gets as Valor Realizado the formatted sum of exactly
the sales rows matching its own (Filial, Código) composite key — sales of
the same Código at other Filiais are ignored — while any other row gets the
formatted sum of all sales rows with its Código across all Filiais; in both
cases a row with no matching sales entries keeps an empty string, not a
formatted zero. -/
theorem C3_valor_realizado (calcT : List CalcRow) (vendas : List VendaRow)
    (excl : List String) (i : ℕ) (r r' : CalcRow)
    (hr : calcT.get? i = some r)
    (hr' : (update_valor_realizado_from_vendas calcT vendas excl).get? i = some r')
    (hv : vendas ≠ []) :
    (excl.contains (pyStrip r.codigo) = true →
      r'.valorRealizado =
        (if vendas.filter (fun v => vendaCompositeKey v == calcCompositeKey r) = []
         then ""
         else float_to_br_text_2
           (sumVendas (vendas.filter
             (fun v => vendaCompositeKey v == calcCompositeKey r)))))
    ∧ (excl.contains (pyStrip r.codigo) = false →
      r'.valorRealizado =
        (if vendas.filter (fun v => vendaCodigoKey v == pyStrip r.codigo) = []
         then ""
         else float_to_br_text_2
           (sumVendas (vendas.filter
             (fun v => vendaCodigoKey v == pyStrip r.codigo))))) := by
  have hrmem : r ∈ calcT := List.get?_mem hr
  unfold update_valor_realizado_from_vendas at hr'
  rw [if_neg hv] at hr'
  rw [List.get?_map, hr] at hr'
  simp only [Option.map_some'] at hr'
  have hr2 := Option.some.inj hr'
  constructor
  · intro hex
    have habs : ((vendas.filter (fun v =>
          ((calcT.filter (fun x => excl.contains (pyStrip x.codigo))).map
            calcCompositeKey).contains (vendaCompositeKey v))).filter
          (fun v => vendaCompositeKey v == calcCompositeKey r))
        = vendas.filter (fun v => vendaCompositeKey v == calcCompositeKey r) := by
      apply filter_filter_absorb
      intro v hp
      have hkey : vendaCompositeKey v = calcCompositeKey r := by simpa using hp
      have hrk : calcCompositeKey r ∈ ((calcT.filter
          (fun x => excl.contains (pyStrip x.codigo))).map calcCompositeKey) :=
        List.mem_map.mpr ⟨r, List.mem_filter.mpr ⟨hrmem, hex⟩, rfl⟩
      simp [hkey]
      simpa using hrk
    rw [← hr2, if_pos hex, habs]
    by_cases hms : vendas.filter (fun v => vendaCompositeKey v == calcCompositeKey r) = []
    · simp [hms]
    · simp [hms]
  · intro hex
    have habs : ((vendas.filter (fun v =>
          ((calcT.filter (fun x => !(excl.contains (pyStrip x.codigo)))).map
            (fun x => pyStrip x.codigo)).contains (vendaCodigoKey v))).filter
          (fun v => vendaCodigoKey v == pyStrip r.codigo))
        = vendas.filter (fun v => vendaCodigoKey v == pyStrip r.codigo) := by
      apply filter_filter_absorb
      intro v hp
      have hkey : vendaCodigoKey v = pyStrip r.codigo := by simpa using hp
      have hrk : pyStrip r.codigo ∈ ((calcT.filter
          (fun x => !(excl.contains (pyStrip x.codigo)))).map
            (fun x => pyStrip x.codigo)) :=
        List.mem_map.mpr ⟨r, List.mem_filter.mpr ⟨hrmem, by rw [hex]; rfl⟩, rfl⟩
      simp [hkey]
      simpa using hrk
    rw [← hr2, if_neg (fun hc => by rw [hex] at hc; exact absurd hc (by decide)), habs]
    by_cases hms : vendas.filter (fun v => vendaCodigoKey v == pyStrip r.codigo) = []
    · simp [hms]
    · simp [hms]

/-- Witness for C3: one exception row and one regular row sharing Código 7;
the exception row only sees its own Filial's sales, the regular row pools
both Filiais. -/
theorem C3_valor_realizado_witness :
    ((update_valor_realizado_from_vendas
        [⟨"17", "1", "7", "Ana", "", "", "", "", "GERENTE", "", "", "", ""⟩]
        [⟨"1", "7", "100,00"⟩, ⟨"2", "7", "40,00"⟩] ["7"]).get? 0).map
      CalcRow.valorRealizado = some "100,00" := by
  have h := C3_valor_realizado
    [⟨"17", "1", "7", "Ana", "", "", "", "", "GERENTE", "", "", "", ""⟩]
    [⟨"1", "7", "100,00"⟩, ⟨"2", "7", "40,00"⟩] ["7"] 0
    ⟨"17", "1", "7", "Ana", "", "", "", "", "GERENTE", "", "", "", ""⟩
    ⟨"17", "1", "7", "Ana", "", "100,00", "", "", "GERENTE", "", "", "", ""⟩
    (by decide) (by with_unfolding_all decide) (by decide)
  have h2 := h.1 (by decide)
  rw [(by with_unfolding_all decide :
    ((update_valor_realizado_from_vendas
        [⟨"17", "1", "7", "Ana", "", "", "", "", "GERENTE", "", "", "", ""⟩]
        [⟨"1", "7", "100,00"⟩, ⟨"2", "7", "40,00"⟩] ["7"]).get? 0)
      = some (⟨"17", "1", "7", "Ana", "", "100,00", "", "", "GERENTE", "", "", "", ""⟩
        : CalcRow))]
  rfl

/-- C4: for a non-manager calc row, when COMISSOES is non-empty, the Meta
parses to a non-zero value, and the commissions sharing the row's Código
sum (all of them, not first-wins) to a non-zero two-decimal total `tot`,
then — with percentual = realized/meta, missing realized treated as 0 — the
paid commission is `tot × 0.5` below 80% and the full `tot` otherwise, the
bonus is 150 at or above 110%, 75 in [105%, 110%), and blank below, and the
total is paid + bonus; and for any non-manager row whose Meta is missing or
zero, paid, bonus and total are all blank. -/
theorem C4_incentive (calcT : List CalcRow) (coms : List ComRow) (tr : List String)
    (i : ℕ) (r r' : CalcRow) (hr : calcT.get? i = some r)
    (hr' : (update_premiacoes_from_comissoes calcT coms tr).get? i = some r')
    (hcoms : coms ≠ [])
    (hm : manager_funcoes.contains (asciiUpper (pyStrip r.funcao)) = false) :
    (∀ mq tot : ℚ, br_text_to_float r.meta = some mq → mq ≠ 0 →
      comissaoTotal? coms (pyStrip (rmDotZero r.codigo)) = some tot → tot ≠ 0 →
      roundQ2 tot = tot →
      (r'.premPaga = float_to_br_text_2
          (if (br_text_to_float r.valorRealizado).getD 0 / mq < 4 / 5
           then tot * (1 / 2) else tot)
        ∧ r'.bonus =
          (if 21 / 20 ≤ (br_text_to_float r.valorRealizado).getD 0 / mq
              ∧ (br_text_to_float r.valorRealizado).getD 0 / mq < 11 / 10
           then float_to_br_text_2 75
           else if 11 / 10 ≤ (br_text_to_float r.valorRealizado).getD 0 / mq
           then float_to_br_text_2 150 else "")
        ∧ r'.premTotal = float_to_br_text_2
          ((if (br_text_to_float r.valorRealizado).getD 0 / mq < 4 / 5
            then tot * (1 / 2) else tot)
            + (if 21 / 20 ≤ (br_text_to_float r.valorRealizado).getD 0 / mq
                  ∧ (br_text_to_float r.valorRealizado).getD 0 / mq < 11 / 10
               then 75
               else if 11 / 10 ≤ (br_text_to_float r.valorRealizado).getD 0 / mq
               then 150 else 0))))
    ∧ ((br_text_to_float r.meta = none ∨ br_text_to_float r.meta = some 0) →
        r'.premPaga = "" ∧ r'.bonus = "" ∧ r'.premTotal = "") := by
  unfold update_premiacoes_from_comissoes at hr'
  rw [if_neg hcoms, List.get?_map, hr] at hr'
  simp only [Option.map_some'] at hr'
  have hr2 := Option.some.inj hr'
  constructor
  · intro mq tot hmeta hmq htot htot0 hround
    rw [← hr2]
    unfold premiacoesRow
    dsimp only
    have hstr : comissaoStr coms (pyStrip (rmDotZero r.codigo))
        = float_to_br_text_2 tot := by
      unfold comissaoStr
      rw [htot]
      dsimp only
      rw [if_neg htot0]
    have hq : br_text_to_float (comissaoStr coms (pyStrip (rmDotZero r.codigo)))
        = some tot := by
      rw [hstr, br_roundtrip_signed, hround]
    rw [hq, hm, hmeta]
    simp only [Bool.false_and, Bool.false_eq_true, if_false]
    rw [if_neg hmq]
    by_cases hp : (br_text_to_float r.valorRealizado).getD 0 / mq < 4 / 5
    · by_cases hb1 : 21 / 20 ≤ (br_text_to_float r.valorRealizado).getD 0 / mq
          ∧ (br_text_to_float r.valorRealizado).getD 0 / mq < 11 / 10
      · simp [hp, hb1]
      · by_cases hb2 : 11 / 10 ≤ (br_text_to_float r.valorRealizado).getD 0 / mq
        · simp [hp, hb1, hb2]
        · simp [hp, hb1, hb2]
    · by_cases hb1 : 21 / 20 ≤ (br_text_to_float r.valorRealizado).getD 0 / mq
          ∧ (br_text_to_float r.valorRealizado).getD 0 / mq < 11 / 10
      · simp [hp, hb1]
      · by_cases hb2 : 11 / 10 ≤ (br_text_to_float r.valorRealizado).getD 0 / mq
        · simp [hp, hb1, hb2]
        · simp [hp, hb1, hb2]
  · intro hblank
    rw [← hr2]
    unfold premiacoesRow
    dsimp only
    rw [hm]
    simp only [Bool.false_and, Bool.false_eq_true, if_false]
    rcases hblank with hb | hb
    · rw [hb]
      cases hcq : br_text_to_float (comissaoStr coms (pyStrip (rmDotZero r.codigo))) <;>
        simp
    · rw [hb]
      cases hcq : br_text_to_float (comissaoStr coms (pyStrip (rmDotZero r.codigo))) <;>
        simp

/-- Witness for C4 reproducing the spec's example: target 1.000,00, realized
750,00 (75% < 80%), commission 100,00 → paid 50,00, blank bonus, total
50,00. -/
theorem C4_incentive_witness :
    ((update_premiacoes_from_comissoes
        [⟨"17", "1", "7", "Ana", "1.000,00", "750,00", "", "", "FARMACEUTICO", "", "", "", ""⟩]
        [⟨"7", "100,00"⟩] []).get? 0).map
      (fun x => (x.premPaga, x.bonus, x.premTotal))
      = some ("50,00", "", "50,00") := by
  have h := C4_incentive
    [⟨"17", "1", "7", "Ana", "1.000,00", "750,00", "", "", "FARMACEUTICO", "", "", "", ""⟩]
    [⟨"7", "100,00"⟩] [] 0
    ⟨"17", "1", "7", "Ana", "1.000,00", "750,00", "", "", "FARMACEUTICO", "", "", "", ""⟩
    ⟨"17", "1", "7", "Ana", "1.000,00", "750,00", "", "", "FARMACEUTICO", "100,00", "50,00", "", "50,00"⟩
    (by decide) (by with_unfolding_all decide) (by decide) (by decide)
  have h1 := h.1 1000 100 (by with_unfolding_all decide) (by norm_num)
    (by with_unfolding_all decide) (by norm_num) (by with_unfolding_all decide)
  rw [(by with_unfolding_all decide :
    ((update_premiacoes_from_comissoes
        [⟨"17", "1", "7", "Ana", "1.000,00", "750,00", "", "", "FARMACEUTICO", "", "", "", ""⟩]
        [⟨"7", "100,00"⟩] []).get? 0)
      = some (⟨"17", "1", "7", "Ana", "1.000,00", "750,00", "", "", "FARMACEUTICO",
          "100,00", "50,00", "", "50,00"⟩ : CalcRow))]
  rfl

theorem dropWhile_dropWhile (p : Char → Bool) (l : List Char) :
    (l.dropWhile p).dropWhile p = l.dropWhile p := by
  induction l with
  | nil => rfl
  | cons c rest ih =>
    by_cases h : p c
    · simp [List.dropWhile_cons, h, ih]
    · simp [List.dropWhile_cons, h]

theorem dropWhile_decomp (p : Char → Bool) (l : List Char) :
    ∃ t, l = t ++ l.dropWhile p := by
  induction l with
  | nil => exact ⟨[], rfl⟩
  | cons c rest ih =>
    by_cases h : p c
    · obtain ⟨t, ht⟩ := ih
      refine ⟨c :: t, ?_⟩
      simp only [List.dropWhile_cons, h, if_true, List.cons_append]
      rw [← ht]
    · exact ⟨[], by simp [List.dropWhile_cons, h]⟩

theorem mem_of_mem_dropWhile (p : Char → Bool) (l : List Char) (c : Char)
    (h : c ∈ l.dropWhile p) : c ∈ l := by
  obtain ⟨t, ht⟩ := dropWhile_decomp p l
  rw [ht]
  exact List.mem_append_right t h

theorem mem_of_mem_trimChars (l : List Char) (c : Char) (h : c ∈ trimChars l) :
    c ∈ l := by
  unfold trimChars at h
  rw [List.mem_reverse] at h
  have h2 := mem_of_mem_dropWhile _ _ _ h
  rw [List.mem_reverse] at h2
  exact mem_of_mem_dropWhile _ _ _ h2

theorem trimChars_idem (l : List Char) : trimChars (trimChars l) = trimChars l := by
  have hB : ∀ m : List Char, (m.dropWhile isSpaceChar).dropWhile isSpaceChar
      = m.dropWhile isSpaceChar := fun m => dropWhile_dropWhile _ m
  set A := l.dropWhile isSpaceChar with hA
  set B := A.reverse.dropWhile isSpaceChar with hBdef
  have htl : trimChars l = B.reverse := rfl
  have hrev : (trimChars l).reverse.dropWhile isSpaceChar = (trimChars l).reverse := by
    rw [htl, List.reverse_reverse, hBdef, hB]
  have hfront : (trimChars l).dropWhile isSpaceChar = trimChars l := by
    rw [htl]
    by_cases hBnil : B = []
    · simp [hBnil]
    · obtain ⟨t, ht⟩ := dropWhile_decomp isSpaceChar A.reverse
      rw [← hBdef] at ht
      have hArev : A = B.reverse ++ t.reverse := by
        have h2 := congrArg List.reverse ht
        simpa using h2
      have hBrne : B.reverse ≠ [] := by simpa using hBnil
      obtain ⟨c0, cs, hc⟩ := List.exists_cons_of_ne_nil hBrne
      have hc0 : isSpaceChar c0 = false := by
        by_contra hcon
        have hc0t : isSpaceChar c0 = true := by
          cases hv : isSpaceChar c0
          · exact absurd hv hcon
          · rfl
        have hAc : A = c0 :: (cs ++ t.reverse) := by
          rw [hArev, hc]
          simp
        have hdw := hB l
        rw [← hA] at hdw
        rw [hAc] at hdw
        simp only [List.dropWhile_cons, hc0t, if_true] at hdw
        have hlen : ((cs ++ t.reverse).dropWhile isSpaceChar).length
            ≤ (cs ++ t.reverse).length :=
          (List.dropWhile_sublist isSpaceChar).length_le
        have h3 : ((cs ++ t.reverse).dropWhile isSpaceChar).length
            = (cs ++ t.reverse).length + 1 := by
          rw [hdw]
          simp
        omega
      rw [hc]
      simp [List.dropWhile_cons, hc0]
  calc trimChars (trimChars l)
      = (((trimChars l).dropWhile isSpaceChar).reverse.dropWhile isSpaceChar).reverse := rfl
    _ = ((trimChars l).reverse.dropWhile isSpaceChar).reverse := by rw [hfront]
    _ = (trimChars l).reverse.reverse := by rw [hrev]
    _ = trimChars l := List.reverse_reverse _

theorem pyStrip_idem (s : String) : pyStrip (pyStrip s) = pyStrip s := by
  show String.mk (trimChars (String.mk (trimChars s.data)).data) = _
  rw [show (String.mk (trimChars s.data)).data = trimChars s.data from rfl,
    trimChars_idem]
  rfl

theorem rmDotZeroChars_eq_self : ∀ l : List Char, ('.' ∉ l) → rmDotZeroChars l = l
  | [], _ => rfl
  | [c], _ => rfl
  | c1 :: c2 :: rest, h => by
    have h1 : c1 ≠ '.' := fun hc => h (by simp [hc])
    have hrec := rmDotZeroChars_eq_self (c2 :: rest) (fun hc => h (List.mem_cons_of_mem _ hc))
    unfold rmDotZeroChars
    rw [if_neg (fun hc => h1 hc.1), hrec]

theorem rmDotZero_eq_self (s : String) (h : '.' ∉ s.data) : rmDotZero s = s := by
  show String.mk (rmDotZeroChars s.data) = s
  rw [rmDotZeroChars_eq_self s.data h]

theorem normCod_idem (c0 : String) (hdot : '.' ∉ c0.data) :
    pyStrip (rmDotZero (pyStrip (rmDotZero c0))) = pyStrip (rmDotZero c0) := by
  rw [rmDotZero_eq_self c0 hdot]
  have hdot2 : '.' ∉ (pyStrip c0).data := by
    intro hc
    exact hdot (mem_of_mem_trimChars _ _ hc)
  rw [rmDotZero_eq_self _ hdot2, pyStrip_idem]

theorem norm2Meta_fixed (r : CalcRow) (hid : pyStrip r.id = r.id)
    (hcod : pyStrip (rmDotZero r.codigo) = r.codigo) : norm2Meta r = r := by
  unfold norm2Meta
  rw [hid, hcod]

theorem norm2Meta_norm2Meta (r : CalcRow) (hdot : '.' ∉ r.codigo.data) :
    norm2Meta (norm2Meta r) = norm2Meta r := by
  apply norm2Meta_fixed
  · exact pyStrip_idem _
  · exact normCod_idem _ hdot

theorem map_norm2Meta_id (l : List CalcRow) (h : ∀ x ∈ l, norm2Meta x = x) :
    l.map norm2Meta = l := by
  induction l with
  | nil => rfl
  | cons a t ih =>
    rw [List.map_cons, h a (by simp), ih (fun x hx => h x (by simp [hx]))]

theorem apply2MetaStep_none (calcN : List CalcRow) (ds : List MetaRow) :
    ds.foldl (apply2MetaStep calcN) none = none := by
  induction ds with
  | nil => rfl
  | cons d rest ih =>
    rw [List.foldl_cons]
    exact ih

theorem apply2Meta_fold_spec (calcN : List CalcRow) :
    ∀ (ds : List MetaRow) (acc out : List CalcRow),
      ds.foldl (apply2MetaStep calcN) (some acc) = some out →
      ∃ extra, out = acc ++ extra
        ∧ List.Sublist (extra.map CalcRow.id) (ds.map (fun d => pyStrip d.id))
        ∧ ∀ row ∈ extra,
            (calcN.any (fun r => r.id == row.id)) = false
            ∧ row.codigo ∈ calcN.map CalcRow.codigo
            ∧ pyStrip row.id = row.id
  | [], acc, out, h => by
    simp only [List.foldl_nil, Option.some.injEq] at h
    exact ⟨[], by simp [h], by simp, by simp⟩
  | d :: rest, acc, out, h => by
    rw [List.foldl_cons] at h
    by_cases hany : calcN.any (fun r => r.id == pyStrip d.id) = true
    · rw [show apply2MetaStep calcN (some acc) d = some acc by
        unfold apply2MetaStep
        dsimp only
        rw [if_pos hany]] at h
      obtain ⟨extra, he, hsub, hprop⟩ := apply2Meta_fold_spec calcN rest acc out h
      exact ⟨extra, he, hsub.cons _, hprop⟩
    · cases hfind : calcN.find? (fun r => r.codigo == pyStrip (rmDotZero d.codigo)) with
      | none =>
        rw [show apply2MetaStep calcN (some acc) d = some acc by
          unfold apply2MetaStep
          dsimp only
          rw [if_neg hany, hfind]] at h
        obtain ⟨extra, he, hsub, hprop⟩ := apply2Meta_fold_spec calcN rest acc out h
        exact ⟨extra, he, hsub.cons _, hprop⟩
      | some base =>
        cases hint : pyInt? (pyStrip d.filial) with
        | none =>
          rw [show apply2MetaStep calcN (some acc) d = none by
            unfold apply2MetaStep
            dsimp only
            rw [if_neg hany, hfind, hint]] at h
          rw [apply2MetaStep_none] at h
          exact absurd h (by simp)
        | some f =>
          rw [show apply2MetaStep calcN (some acc) d
              = some (acc ++ [{ base with filial := intToStr f, id := pyStrip d.id }]) by
            unfold apply2MetaStep
            dsimp only
            rw [if_neg hany, hfind, hint]] at h
          obtain ⟨extra, he, hsub, hprop⟩ := apply2Meta_fold_spec calcN rest _ out h
          refine ⟨{ base with filial := intToStr f, id := pyStrip d.id } :: extra, ?_, ?_, ?_⟩
          · rw [he]
            simp
          · exact hsub.cons₂ _
          · intro row hrow
            rcases List.mem_cons.mp hrow with rfl | hrow2
            · refine ⟨by simpa using hany, ?_, pyStrip_idem _⟩
              exact List.mem_map.mpr ⟨base, List.mem_of_find?_eq_some hfind, rfl⟩
            · exact hprop row hrow2

theorem apply2Meta_fold_skip (C : List CalcRow) :
    ∀ (ds : List MetaRow) (acc : List CalcRow),
      (∀ d ∈ ds, C.any (fun r => r.id == pyStrip d.id) = true
        ∨ C.find? (fun r => r.codigo == pyStrip (rmDotZero d.codigo)) = none) →
      ds.foldl (apply2MetaStep C) (some acc) = some acc
  | [], _, _ => rfl
  | d :: rest, acc, h => by
    rw [List.foldl_cons]
    have hstep : apply2MetaStep C (some acc) d = some acc := by
      unfold apply2MetaStep
      dsimp only
      rcases h d (by simp) with hc | hc
      · rw [if_pos hc]
      · by_cases hany : C.any (fun r => r.id == pyStrip d.id) = true
        · rw [if_pos hany]
        · rw [if_neg hany, hc]
    rw [hstep]
    exact apply2Meta_fold_skip C rest acc (fun x hx => h x (by simp [hx]))

theorem apply2Meta_fold_covers (calcN : List CalcRow) :
    ∀ (ds : List MetaRow) (acc out : List CalcRow),
      ds.foldl (apply2MetaStep calcN) (some acc) = some out →
      ∀ d ∈ ds,
        calcN.any (fun r => r.id == pyStrip d.id) = true
        ∨ (∃ row ∈ out, row.id = pyStrip d.id)
        ∨ calcN.find? (fun r => r.codigo == pyStrip (rmDotZero d.codigo)) = none
  | [], _, _, _ => by
    intro d hd
    simp at hd
  | d0 :: rest, acc, out, h => by
    intro d hd
    rw [List.foldl_cons] at h
    rcases List.mem_cons.mp hd with rfl | hd2
    · by_cases hany : calcN.any (fun r => r.id == pyStrip d.id) = true
      · exact Or.inl hany
      · cases hfind : calcN.find? (fun r => r.codigo == pyStrip (rmDotZero d.codigo)) with
        | none => exact Or.inr (Or.inr rfl)
        | some base =>
          cases hint : pyInt? (pyStrip d.filial) with
          | none =>
            rw [show apply2MetaStep calcN (some acc) d = none by
              unfold apply2MetaStep
              dsimp only
              rw [if_neg hany, hfind, hint]] at h
            rw [apply2MetaStep_none] at h
            exact absurd h (by simp)
          | some f =>
            rw [show apply2MetaStep calcN (some acc) d
                = some (acc ++ [{ base with filial := intToStr f, id := pyStrip d.id }]) by
              unfold apply2MetaStep
              dsimp only
              rw [if_neg hany, hfind, hint]] at h
            obtain ⟨extra, he, _, _⟩ := apply2Meta_fold_spec calcN rest _ out h
            refine Or.inr (Or.inl
              ⟨{ base with filial := intToStr f, id := pyStrip d.id }, ?_, rfl⟩)
            rw [he]
            simp
    · cases hstep : apply2MetaStep calcN (some acc) d0 with
      | none =>
        rw [hstep, apply2MetaStep_none] at h
        exact absurd h (by simp)
      | some acc2 =>
        rw [hstep] at h
        exact apply2Meta_fold_covers calcN rest acc2 out h d hd2

theorem map_norm2Meta_ids (l : List CalcRow) :
    (l.map norm2Meta).map CalcRow.id = (l.map CalcRow.id).map pyStrip := by
  induction l with
  | nil => rfl
  | cons a t ih =>
    simp only [List.map_cons]
    rw [ih]
    exact rfl

/-- C7 (counterexample): applying the same 2_META directives twice is not
idempotent.  The step normalises the Código column in place with
`str.replace(".0", "")`, which is not an idempotent string operation: the
Código `"..00"` becomes `".0"` after the first application and `""` after
the second, so the table after the second application differs from the
table after the first even though the directive itself is skipped both
times. -/
theorem C7_counterexample :
    apply_2_meta_overrides
        [⟨"1", "1", "..00", "A", "", "", "", "", "GERENTE", "", "", "", ""⟩]
        [⟨"1", "9", "9", "B"⟩]
      = some [⟨"1", "1", ".0", "A", "", "", "", "", "GERENTE", "", "", "", ""⟩]
    ∧ apply_2_meta_overrides
        [⟨"1", "1", ".0", "A", "", "", "", "", "GERENTE", "", "", "", ""⟩]
        [⟨"1", "9", "9", "B"⟩]
      = some [⟨"1", "1", "", "A", "", "", "", "", "GERENTE", "", "", "", ""⟩]
    ∧ (some [(⟨"1", "1", "", "A", "", "", "", "", "GERENTE", "", "", "", ""⟩ : CalcRow)]
        ≠ some [(⟨"1", "1", ".0", "A", "", "", "", "", "GERENTE", "", "", "", ""⟩ : CalcRow)]) :=
  ⟨by decide, by decide, by decide⟩

/-- C7 (amended): applying the same 2_META directives a second time is a
no-op provided every row's normalised Código is a fixed point of the
normalisation (true in particular for plain integer Códigos with at most a
trailing `.0` artifact).  Under that hypothesis the first application's
output is already normalised, every directive is skipped in the second
round (its ID is present, or its Código still matches no row), and the
table is returned unchanged. -/
theorem C7_amended (calcT : List CalcRow) (dirs : List MetaRow) (T1 : List CalcRow)
    (h1 : apply_2_meta_overrides calcT dirs = some T1)
    (hcod : ∀ r ∈ calcT,
      pyStrip (rmDotZero (pyStrip (rmDotZero r.codigo))) = pyStrip (rmDotZero r.codigo)) :
    apply_2_meta_overrides T1 dirs = some T1 := by
  by_cases hdn : dirs = []
  · subst hdn
    unfold apply_2_meta_overrides
    rw [if_pos rfl]
  · unfold apply_2_meta_overrides at h1 ⊢
    rw [if_neg hdn] at h1 ⊢
    dsimp only at h1 ⊢
    cases hfold : dirs.foldl (apply2MetaStep (calcT.map norm2Meta)) (some []) with
    | none =>
      rw [hfold] at h1
      exact absurd h1 (by simp)
    | some rows =>
      rw [hfold] at h1
      have hT1 : T1 = calcT.map norm2Meta ++ rows := (Option.some.inj h1).symm
      obtain ⟨extra, he, hsub, hprop⟩ :=
        apply2Meta_fold_spec (calcT.map norm2Meta) dirs [] rows hfold
      simp only [List.nil_append] at he
      subst he
      have hfixN : ∀ x ∈ calcT.map norm2Meta, norm2Meta x = x := by
        intro x hx
        obtain ⟨y, hy, rfl⟩ := List.mem_map.mp hx
        exact norm2Meta_fixed _ (pyStrip_idem _) (hcod y hy)
      have hfixE : ∀ x ∈ rows, norm2Meta x = x := by
        intro x hx
        obtain ⟨hany, hcodM, hidfix⟩ := hprop x hx
        obtain ⟨y, hy, hyc⟩ := List.mem_map.mp hcodM
        obtain ⟨z, hz, rfl⟩ := List.mem_map.mp hy
        refine norm2Meta_fixed _ hidfix ?_
        rw [← hyc]
        exact hcod z hz
      have hmapT1 : T1.map norm2Meta = T1 := by
        rw [hT1, List.map_append, map_norm2Meta_id _ hfixN, map_norm2Meta_id _ hfixE]
      rw [hmapT1]
      have hcov := apply2Meta_fold_covers (calcT.map norm2Meta) dirs [] rows hfold
      have hskip : ∀ d ∈ dirs,
          T1.any (fun r => r.id == pyStrip d.id) = true
          ∨ T1.find? (fun r => r.codigo == pyStrip (rmDotZero d.codigo)) = none := by
        intro d hd
        rcases hcov d hd with hc | hc | hc
        · left
          rw [hT1, List.any_append, hc, Bool.true_or]
        · left
          obtain ⟨row, hrow, hrid⟩ := hc
          refine List.any_eq_true.mpr ⟨row, ?_, by simp [hrid]⟩
          rw [hT1]
          exact List.mem_append_right _ hrow
        · right
          rw [hT1, List.find?_append, hc]
          show List.find? (fun r => r.codigo == pyStrip (rmDotZero d.codigo)) rows = none
          apply List.find?_eq_none.mpr
          intro row hrow hbeq
          obtain ⟨hany2, hcodM, hidf⟩ := hprop row hrow
          obtain ⟨y, hy, hyc⟩ := List.mem_map.mp hcodM
          have hnone := List.find?_eq_none.mp hc y hy
          apply hnone
          rw [hyc]
          exact hbeq
      rw [apply2Meta_fold_skip T1 dirs [] hskip]
      dsimp only
      rw [List.append_nil]

/-- Witness for `C7_amended` on a concrete table and directive list: the
directive clones the Código-8 row into Filial 2, and re-applying the same
directive to the two-row result returns it unchanged. -/
theorem C7_amended_witness :
    apply_2_meta_overrides
        [⟨"18", "1", "8", "Carla", "", "", "", "", "GERENTE", "", "", "", ""⟩,
         ⟨"28", "2", "8", "Carla", "", "", "", "", "GERENTE", "", "", "", ""⟩]
        [⟨"28", "2", "8", "Davi"⟩]
      = some [⟨"18", "1", "8", "Carla", "", "", "", "", "GERENTE", "", "", "", ""⟩,
              ⟨"28", "2", "8", "Carla", "", "", "", "", "GERENTE", "", "", "", ""⟩] :=
  C7_amended
    [⟨"18", "1", "8", "Carla", "", "", "", "", "GERENTE", "", "", "", ""⟩]
    [⟨"28", "2", "8", "Davi"⟩]
    [⟨"18", "1", "8", "Carla", "", "", "", "", "GERENTE", "", "", "", ""⟩,
     ⟨"28", "2", "8", "Carla", "", "", "", "", "GERENTE", "", "", "", ""⟩]
    (by decide) (by decide)

/-- C9 (counterexample): the calc-table ID is built by string concatenation
of the parsed Filial and Código, so Filial 4 + Código 12 and Filial 41 +
Código 2 both yield ID "412": the roster produced by `build_calc_base`
followed by `apply_2_meta_overrides` (here with no directives) contains
two distinct rows with equal ID strings, refuting uniqueness. -/
theorem C9_counterexample :
    (build_calc_base
        [⟨"F4", "12", "Ana", "X-GERENTE"⟩, ⟨"F41", "2", "Bia", "X-GERENTE"⟩]
      = some [⟨"412", "4", "12", "Ana", "", "", "", "", "GERENTE", "", "", "", ""⟩,
              ⟨"412", "41", "2", "Bia", "", "", "", "", "GERENTE", "", "", "", ""⟩])
    ∧ (apply_2_meta_overrides
        [⟨"412", "4", "12", "Ana", "", "", "", "", "GERENTE", "", "", "", ""⟩,
         ⟨"412", "41", "2", "Bia", "", "", "", "", "GERENTE", "", "", "", ""⟩] []
      = some [⟨"412", "4", "12", "Ana", "", "", "", "", "GERENTE", "", "", "", ""⟩,
              ⟨"412", "41", "2", "Bia", "", "", "", "", "GERENTE", "", "", "", ""⟩])
    ∧ ((⟨"412", "4", "12", "Ana", "", "", "", "", "GERENTE", "", "", "", ""⟩ : CalcRow)
        ≠ ⟨"412", "41", "2", "Bia", "", "", "", "", "GERENTE", "", "", "", ""⟩)
    ∧ (CalcRow.id ⟨"412", "4", "12", "Ana", "", "", "", "", "GERENTE", "", "", "", ""⟩
        = CalcRow.id ⟨"412", "41", "2", "Bia", "", "", "", "", "GERENTE", "", "", "", ""⟩) :=
  ⟨by decide, by decide, by decide, by decide⟩

/-- C9 (amended): if the base roster's stripped IDs are pairwise distinct
and the directives' stripped IDs are pairwise distinct, then after
`apply_2_meta_overrides` the ID column of the result has no duplicates:
appended rows carry directive IDs that are absent from the (normalised)
base table and, being a sub-selection of the directive list, also distinct
from each other. -/
theorem C9_amended (users : List UserRow) (dirs : List MetaRow) (T0 T1 : List CalcRow)
    (_hb : build_calc_base users = some T0)
    (hids : ((T0.map CalcRow.id).map pyStrip).Nodup)
    (hdir : (dirs.map (fun d => pyStrip d.id)).Nodup)
    (ha : apply_2_meta_overrides T0 dirs = some T1) :
    (T1.map CalcRow.id).Nodup := by
  by_cases hdn : dirs = []
  · subst hdn
    unfold apply_2_meta_overrides at ha
    rw [if_pos rfl] at ha
    rw [← Option.some.inj ha]
    exact List.Nodup.of_map _ hids
  · unfold apply_2_meta_overrides at ha
    rw [if_neg hdn] at ha
    dsimp only at ha
    cases hfold : dirs.foldl (apply2MetaStep (T0.map norm2Meta)) (some []) with
    | none =>
      rw [hfold] at ha
      exact absurd ha (by simp)
    | some rows =>
      rw [hfold] at ha
      have hT1 : T1 = T0.map norm2Meta ++ rows := (Option.some.inj ha).symm
      obtain ⟨extra, he, hsub, hprop⟩ :=
        apply2Meta_fold_spec (T0.map norm2Meta) dirs [] rows hfold
      simp only [List.nil_append] at he
      subst he
      rw [hT1, List.map_append, List.nodup_append]
      refine ⟨?_, ?_, ?_⟩
      · rw [map_norm2Meta_ids]
        exact hids
      · exact List.Nodup.sublist hsub hdir
      · intro a ha1 ha2
        obtain ⟨x, hx, hxid⟩ := List.mem_map.mp ha1
        obtain ⟨row, hrow, hrid⟩ := List.mem_map.mp ha2
        have hanyf := (hprop row hrow).1
        have hno := List.any_eq_false.mp hanyf x hx
        apply hno
        have hxr : x.id = row.id := by rw [hxid, hrid]
        rw [hxr]
        exact beq_self_eq_true _

/-- Witness for `C9_amended`: a one-row base table with ID "17" plus one
directive with ID "27"; the resulting two-row ID column is duplicate-free. -/
theorem C9_amended_witness :
    (([⟨"17", "1", "7", "Ana", "", "", "", "", "GERENTE", "", "", "", ""⟩,
       ⟨"27", "2", "7", "Ana", "", "", "", "", "GERENTE", "", "", "", ""⟩] :
        List CalcRow).map CalcRow.id).Nodup :=
  C9_amended [⟨"F1", "7", "Ana", "X-GERENTE"⟩] [⟨"27", "2", "7", "Bia"⟩]
    [⟨"17", "1", "7", "Ana", "", "", "", "", "GERENTE", "", "", "", ""⟩]
    [⟨"17", "1", "7", "Ana", "", "", "", "", "GERENTE", "", "", "", ""⟩,
     ⟨"27", "2", "7", "Ana", "", "", "", "", "GERENTE", "", "", "", ""⟩]
    (by decide) (by decide) (by decide) (by decide)
